import Mathlib

set_option maxRecDepth 100000

/-!
Verification of the nullsociety node core against its specification.

The economic state entities of `src/types/src/casino/economy.rs` are embedded
as Lean structures with `Nat`/`Int` fields (machine-width bounds are explicit
well-formedness predicates).  The append-only, length-prefixed serialization
format is embedded as functions over byte lists (`List Nat`, each element
`< 256`), mirroring each `Write`/`Read` implementation field by field.
The application-mailbox fallback logic of `src/node/src/application/ingress.rs`
and the supervisor shutdown loop of `src/node/src/engine.rs` are embedded as
pure functions over explicit state (mailbox closed flag, stop-signal flag, the
resolution of the send/stop race, and the task list).
-/

/-! ## Byte-stream primitives

Fixed-width little-endian integers, mirroring the codec used by the entity
serializers (the spec fixes the format as little-endian, length-prefixed,
append-only).  A byte stream is a `List Nat`; writers only emit values `< 256`.
-/

/-- Write `k` bytes of `v`, little-endian (least significant byte first). -/
def writeLEBytes : Nat → Nat → List Nat
  | 0, _ => []
  | k + 1, v => v % 256 :: writeLEBytes k (v / 256)

/-- Read `k` little-endian bytes; `none` when fewer than `k` bytes remain. -/
def readLEBytes : Nat → List Nat → Option (Nat × List Nat)
  | 0, bs => some (0, bs)
  | _ + 1, [] => none
  | k + 1, b :: bs =>
    match readLEBytes k bs with
    | some (v, rest) => some (b + 256 * v, rest)
    | none => none

@[simp] theorem writeLEBytes_length (k v : Nat) : (writeLEBytes k v).length = k := by
  induction k generalizing v with
  | zero => rfl
  | succ k ih => simp [writeLEBytes, ih]

theorem readLEBytes_writeLEBytes (k v : Nat) (rest : List Nat) :
    readLEBytes k (writeLEBytes k v ++ rest) = some (v % 256 ^ k, rest) := by
  induction k generalizing v with
  | zero => simp [writeLEBytes, readLEBytes, Nat.mod_one]
  | succ k ih =>
    show readLEBytes (k + 1) (v % 256 :: (writeLEBytes k (v / 256) ++ rest)) = _
    rw [readLEBytes, ih]
    show some (v % 256 + 256 * (v / 256 % 256 ^ k), rest) = _
    have h : v % 256 ^ (k + 1) = v % 256 + 256 * (v / 256 % 256 ^ k) := by
      rw [pow_succ, Nat.mul_comm (256 ^ k) 256, Nat.mod_mul]
    rw [h]

theorem readLEBytes_none_of_short (k : Nat) (bs : List Nat) (h : bs.length < k) :
    readLEBytes k bs = none := by
  induction k generalizing bs with
  | zero => omega
  | succ k ih =>
    cases bs with
    | nil => rfl
    | cons b bs =>
      simp only [readLEBytes]
      rw [ih bs (by simpa using h)]

theorem readLEBytes_some_of_le (k : Nat) (bs : List Nat) (h : k ≤ bs.length) :
    ∃ v rest, readLEBytes k bs = some (v, rest) ∧ rest.length = bs.length - k := by
  induction k generalizing bs with
  | zero => exact ⟨0, bs, rfl, by omega⟩
  | succ k ih =>
    cases bs with
    | nil => simp at h
    | cons b bs =>
      obtain ⟨v, rest, hv, hlen⟩ := ih bs (by simpa using Nat.le_of_succ_le_succ h)
      refine ⟨b + 256 * v, rest, ?_, ?_⟩
      · simp [readLEBytes, hv]
      · simp at h ⊢
        omega

/-- Variant of `readLEBytes_writeLEBytes` for in-range values. -/
theorem readLEBytes_writeLEBytes_of_lt (k v : Nat) (rest : List Nat)
    (h : v < 256 ^ k) :
    readLEBytes k (writeLEBytes k v ++ rest) = some (v, rest) := by
  rw [readLEBytes_writeLEBytes, Nat.mod_eq_of_lt h]

theorem readLEBytes_writeLEBytes_nil (k v : Nat) (h : v < 256 ^ k) :
    readLEBytes k (writeLEBytes k v) = some (v, []) := by
  have := readLEBytes_writeLEBytes_of_lt k v [] h
  simpa using this

/-! ## Optional trailing reads

The forward-compatible append rule: `if reader.remaining() >= SIZE { read }
else { default }`.  A read guarded by the remaining-length check never fails,
so the `getD` default is unreachable. -/

/-- Mirror of the guarded optional read of a `k`-byte little-endian integer. -/
def readOptLE (k d : Nat) (bs : List Nat) : Nat × List Nat :=
  if k ≤ bs.length then (readLEBytes k bs).getD (d, bs) else (d, bs)

theorem readOptLE_write (k d v : Nat) (rest : List Nat) (h : v < 256 ^ k) :
    readOptLE k d (writeLEBytes k v ++ rest) = (v, rest) := by
  rw [readOptLE, if_pos (by simp), readLEBytes_writeLEBytes_of_lt k v rest h]
  rfl

theorem readOptLE_write_nil (k d v : Nat) (h : v < 256 ^ k) :
    readOptLE k d (writeLEBytes k v) = (v, []) := by
  have := readOptLE_write k d v [] h
  simpa using this

theorem readOptLE_nil (k d : Nat) (hk : 0 < k) : readOptLE k d [] = (d, []) := by
  rw [readOptLE, if_neg (by simp; omega)]

/-! ## Signed 128-bit integers (two's complement) -/

/-- Two's-complement image of an `i128` value in `[0, 2^128)`. -/
def twosOfInt (v : Int) : Nat := (v % (2 ^ 128 : Int)).toNat

/-- Recover an `i128` value from its two's-complement image. -/
def intOfTwos (n : Nat) : Int :=
  if n < 2 ^ 127 then (n : Int) else (n : Int) - 2 ^ 128

def writeI128 (v : Int) : List Nat := writeLEBytes 16 (twosOfInt v)

def readI128 (bs : List Nat) : Option (Int × List Nat) :=
  match readLEBytes 16 bs with
  | some (n, rest) => some (intOfTwos n, rest)
  | none => none

theorem twosOfInt_lt (v : Int) : twosOfInt v < 256 ^ 16 := by
  have h2 : (256 : Nat) ^ 16 = 2 ^ 128 := by norm_num
  rw [twosOfInt, h2]
  omega

theorem intOfTwos_twosOfInt (v : Int) (hlo : -(2 ^ 127) ≤ v) (hhi : v < 2 ^ 127) :
    intOfTwos (twosOfInt v) = v := by
  rw [twosOfInt, intOfTwos]
  split <;> omega

theorem readI128_writeI128 (v : Int) (rest : List Nat)
    (hlo : -(2 ^ 127) ≤ v) (hhi : v < 2 ^ 127) :
    readI128 (writeI128 v ++ rest) = some (v, rest) := by
  rw [writeI128, readI128]
  rw [readLEBytes_writeLEBytes_of_lt 16 _ rest (twosOfInt_lt v)]
  show some (intOfTwos (twosOfInt v), rest) = some (v, rest)
  rw [intOfTwos_twosOfInt v hlo hhi]

theorem readI128_writeI128_nil (v : Int)
    (hlo : -(2 ^ 127) ≤ v) (hhi : v < 2 ^ 127) :
    readI128 (writeI128 v) = some (v, []) := by
  have := readI128_writeI128 v [] hlo hhi
  simpa using this

/-! ## Machine-integer bounds -/

def U16 (n : Nat) : Prop := n < 2 ^ 16
def U64 (n : Nat) : Prop := n < 2 ^ 64
def U128 (n : Nat) : Prop := n < 2 ^ 128
def I128 (v : Int) : Prop := -(2 ^ 127) ≤ v ∧ v < 2 ^ 127

instance (n : Nat) : Decidable (U16 n) := by unfold U16; infer_instance
instance (n : Nat) : Decidable (U64 n) := by unfold U64; infer_instance
instance (n : Nat) : Decidable (U128 n) := by unfold U128; infer_instance
instance (v : Int) : Decidable (I128 v) := by unfold I128; infer_instance

theorem u64_lt_pow (n : Nat) (h : U64 n) : n < 256 ^ 8 := by
  have h2 : (256 : Nat) ^ 8 = 2 ^ 64 := by norm_num
  rw [h2]; exact h

theorem u128_lt_pow (n : Nat) (h : U128 n) : n < 256 ^ 16 := by
  have h2 : (256 : Nat) ^ 16 = 2 ^ 128 := by norm_num
  rw [h2]; exact h

theorem u16_lt_pow (n : Nat) (h : U16 n) : n < 256 ^ 2 := by
  have h2 : (256 : Nat) ^ 2 = 2 ^ 16 := by norm_num
  rw [h2]; exact h

/-! ## Vault (CDP) — `src/types/src/casino/economy.rs` -/

/-- Vault state for CDP (Collateralized Debt Position). -/
structure Vault where
  collateral_rng : Nat
  debt_vusdt : Nat
  last_accrual_ts : Nat
deriving Repr, DecidableEq

def Vault.WF (s : Vault) : Prop :=
  U64 s.collateral_rng ∧ U64 s.debt_vusdt ∧ U64 s.last_accrual_ts

instance (s : Vault) : Decidable s.WF := by unfold Vault.WF; infer_instance

/-- `impl Write for Vault`. -/
def Vault.write (s : Vault) : List Nat :=
  writeLEBytes 8 s.collateral_rng ++
    (writeLEBytes 8 s.debt_vusdt ++
      writeLEBytes 8 s.last_accrual_ts)

/-- `impl Read for Vault` (`last_accrual_ts` is an optional trailing field). -/
def Vault.read (bs : List Nat) : Option (Vault × List Nat) :=
  match readLEBytes 8 bs with
  | none => none
  | some (collateral_rng, bs) =>
   match readLEBytes 8 bs with
   | none => none
   | some (debt_vusdt, bs) =>
    let (last_accrual_ts, bs) := readOptLE 8 0 bs
    some ({ collateral_rng, debt_vusdt, last_accrual_ts }, bs)

theorem vault_read_write (s : Vault) (h : s.WF) :
    Vault.read s.write = some (s, []) := by
  obtain ⟨h1, h2, h3⟩ := h
  rw [Vault.write, Vault.read]
  rw [readLEBytes_writeLEBytes_of_lt 8 _ _ (u64_lt_pow _ h1)]
  simp only []
  rw [readLEBytes_writeLEBytes_of_lt 8 _ _ (u64_lt_pow _ h2)]
  simp only []
  rw [readOptLE_write_nil 8 _ _ (u64_lt_pow _ h3)]

/-! ## Configured constants

These constants live in the casino module of the `nullspace_types` crate,
outside the visible source slice; only their names and roles are fixed by the
spec, not their numeric values.  No theorem below depends on the values. -/

/-- Modelled from the spec: the configured base value of the three-card
progressive jackpot (`THREE_CARD_PROGRESSIVE_BASE_JACKPOT`); the numeric value
is not given in the visible slice and is irrelevant to the theorems, which
refer to this constant only by name. -/
def THREE_CARD_PROGRESSIVE_BASE_JACKPOT : Nat := 10000

/-- Modelled from the spec: the configured base value of the Ultimate Texas
Hold'em progressive jackpot (`UTH_PROGRESSIVE_BASE_JACKPOT`); the numeric
value is not given in the visible slice and is irrelevant to the theorems. -/
def UTH_PROGRESSIVE_BASE_JACKPOT : Nat := 5000

/-- Modelled from the spec: the bootstrap price numerator
(`AMM_BOOTSTRAP_PRICE_VUSDT_NUMERATOR`); value not in the visible slice. -/
def AMM_BOOTSTRAP_PRICE_VUSDT_NUMERATOR : Nat := 1

/-- Modelled from the spec: the bootstrap price denominator
(`AMM_BOOTSTRAP_PRICE_RNG_DENOMINATOR`); value not in the visible slice. -/
def AMM_BOOTSTRAP_PRICE_RNG_DENOMINATOR : Nat := 1

/-! ## Staker -/

/-- Staker state. -/
structure Staker where
  balance : Nat
  unlock_ts : Nat
  last_claim_epoch : Nat
  voting_power : Nat
  reward_debt_x18 : Nat
  unclaimed_rewards : Nat
deriving Repr, DecidableEq

def Staker.WF (s : Staker) : Prop :=
  U64 s.balance ∧ U64 s.unlock_ts ∧ U64 s.last_claim_epoch ∧
    U128 s.voting_power ∧ U128 s.reward_debt_x18 ∧ U64 s.unclaimed_rewards

instance (s : Staker) : Decidable s.WF := by unfold Staker.WF; infer_instance

/-- `impl Write for Staker`. -/
def Staker.write (s : Staker) : List Nat :=
  writeLEBytes 8 s.balance ++
    (writeLEBytes 8 s.unlock_ts ++
      (writeLEBytes 8 s.last_claim_epoch ++
        (writeLEBytes 16 s.voting_power ++
          (writeLEBytes 16 s.reward_debt_x18 ++
            writeLEBytes 8 s.unclaimed_rewards))))

/-- `impl Read for Staker` (`reward_debt_x18` and `unclaimed_rewards` are
optional trailing fields defaulting to 0). -/
def Staker.read (bs : List Nat) : Option (Staker × List Nat) :=
  match readLEBytes 8 bs with
  | none => none
  | some (balance, bs) =>
   match readLEBytes 8 bs with
   | none => none
   | some (unlock_ts, bs) =>
    match readLEBytes 8 bs with
    | none => none
    | some (last_claim_epoch, bs) =>
     match readLEBytes 16 bs with
     | none => none
     | some (voting_power, bs) =>
      let (reward_debt_x18, bs) := readOptLE 16 0 bs
      let (unclaimed_rewards, bs) := readOptLE 8 0 bs
      some ({ balance, unlock_ts, last_claim_epoch, voting_power, reward_debt_x18, unclaimed_rewards }, bs)

theorem staker_read_write (s : Staker) (h : s.WF) :
    Staker.read s.write = some (s, []) := by
  obtain ⟨h1, h2, h3, h4, h5, h6⟩ := h
  rw [Staker.write, Staker.read]
  rw [readLEBytes_writeLEBytes_of_lt 8 _ _ (u64_lt_pow _ h1)]
  simp only []
  rw [readLEBytes_writeLEBytes_of_lt 8 _ _ (u64_lt_pow _ h2)]
  simp only []
  rw [readLEBytes_writeLEBytes_of_lt 8 _ _ (u64_lt_pow _ h3)]
  simp only []
  rw [readLEBytes_writeLEBytes_of_lt 16 _ _ (u128_lt_pow _ h4)]
  simp only []
  rw [readOptLE_write 16 _ _ _ (u128_lt_pow _ h5)]
  simp only []
  rw [readOptLE_write_nil 8 _ _ (u64_lt_pow _ h6)]

/-! ## SavingsPool -/

/-- vUSDT savings pool state (funded by stability fees). -/
structure SavingsPool where
  total_deposits : Nat
  reward_per_share_x18 : Nat
  pending_rewards : Nat
  total_rewards_accrued : Nat
  total_rewards_paid : Nat
deriving Repr, DecidableEq

def SavingsPool.WF (s : SavingsPool) : Prop :=
  U64 s.total_deposits ∧ U128 s.reward_per_share_x18 ∧ U64 s.pending_rewards ∧
    U64 s.total_rewards_accrued ∧ U64 s.total_rewards_paid

instance (s : SavingsPool) : Decidable s.WF := by unfold SavingsPool.WF; infer_instance

/-- `impl Write for SavingsPool`. -/
def SavingsPool.write (s : SavingsPool) : List Nat :=
  writeLEBytes 8 s.total_deposits ++
    (writeLEBytes 16 s.reward_per_share_x18 ++
      (writeLEBytes 8 s.pending_rewards ++
        (writeLEBytes 8 s.total_rewards_accrued ++
          writeLEBytes 8 s.total_rewards_paid)))

/-- `impl Read for SavingsPool` (every field after `total_deposits` is an
optional trailing field defaulting to 0). -/
def SavingsPool.read (bs : List Nat) : Option (SavingsPool × List Nat) :=
  match readLEBytes 8 bs with
  | none => none
  | some (total_deposits, bs) =>
   let (reward_per_share_x18, bs) := readOptLE 16 0 bs
   let (pending_rewards, bs) := readOptLE 8 0 bs
   let (total_rewards_accrued, bs) := readOptLE 8 0 bs
   let (total_rewards_paid, bs) := readOptLE 8 0 bs
   some ({ total_deposits, reward_per_share_x18, pending_rewards, total_rewards_accrued, total_rewards_paid }, bs)

theorem savingsPool_read_write (s : SavingsPool) (h : s.WF) :
    SavingsPool.read s.write = some (s, []) := by
  obtain ⟨h1, h2, h3, h4, h5⟩ := h
  rw [SavingsPool.write, SavingsPool.read]
  rw [readLEBytes_writeLEBytes_of_lt 8 _ _ (u64_lt_pow _ h1)]
  simp only []
  rw [readOptLE_write 16 _ _ _ (u128_lt_pow _ h2)]
  simp only []
  rw [readOptLE_write 8 _ _ _ (u64_lt_pow _ h3)]
  simp only []
  rw [readOptLE_write 8 _ _ _ (u64_lt_pow _ h4)]
  simp only []
  rw [readOptLE_write_nil 8 _ _ (u64_lt_pow _ h5)]

/-! ## SavingsBalance -/

/-- Per-player savings balance and reward tracking. -/
structure SavingsBalance where
  deposit_balance : Nat
  reward_debt_x18 : Nat
  unclaimed_rewards : Nat
deriving Repr, DecidableEq

def SavingsBalance.WF (s : SavingsBalance) : Prop :=
  U64 s.deposit_balance ∧ U128 s.reward_debt_x18 ∧ U64 s.unclaimed_rewards

instance (s : SavingsBalance) : Decidable s.WF := by
  unfold SavingsBalance.WF; infer_instance

/-- `impl Write for SavingsBalance`. -/
def SavingsBalance.write (s : SavingsBalance) : List Nat :=
  writeLEBytes 8 s.deposit_balance ++
    (writeLEBytes 16 s.reward_debt_x18 ++
      writeLEBytes 8 s.unclaimed_rewards)

/-- `impl Read for SavingsBalance` (fields after `deposit_balance` are optional
trailing fields defaulting to 0). -/
def SavingsBalance.read (bs : List Nat) : Option (SavingsBalance × List Nat) :=
  match readLEBytes 8 bs with
  | none => none
  | some (deposit_balance, bs) =>
   let (reward_debt_x18, bs) := readOptLE 16 0 bs
   let (unclaimed_rewards, bs) := readOptLE 8 0 bs
   some ({ deposit_balance, reward_debt_x18, unclaimed_rewards }, bs)

theorem savingsBalance_read_write (s : SavingsBalance) (h : s.WF) :
    SavingsBalance.read s.write = some (s, []) := by
  obtain ⟨h1, h2, h3⟩ := h
  rw [SavingsBalance.write, SavingsBalance.read]
  rw [readLEBytes_writeLEBytes_of_lt 8 _ _ (u64_lt_pow _ h1)]
  simp only []
  rw [readOptLE_write 16 _ _ _ (u128_lt_pow _ h2)]
  simp only []
  rw [readOptLE_write_nil 8 _ _ (u64_lt_pow _ h3)]

/-! ## AmmPool -/

/-- AMM Pool state (Constant Product Market Maker). -/
structure AmmPool where
  reserve_rng : Nat
  reserve_vusdt : Nat
  total_shares : Nat
  fee_basis_points : Nat
  sell_tax_basis_points : Nat
  bootstrap_price_vusdt_numerator : Nat
  bootstrap_price_rng_denominator : Nat
deriving Repr, DecidableEq

def AmmPool.WF (s : AmmPool) : Prop :=
  U64 s.reserve_rng ∧ U64 s.reserve_vusdt ∧ U64 s.total_shares ∧
    U16 s.fee_basis_points ∧ U16 s.sell_tax_basis_points ∧
    U64 s.bootstrap_price_vusdt_numerator ∧ U64 s.bootstrap_price_rng_denominator

instance (s : AmmPool) : Decidable s.WF := by unfold AmmPool.WF; infer_instance

/-- `impl Write for AmmPool`. -/
def AmmPool.write (s : AmmPool) : List Nat :=
  writeLEBytes 8 s.reserve_rng ++
    (writeLEBytes 8 s.reserve_vusdt ++
      (writeLEBytes 8 s.total_shares ++
        (writeLEBytes 2 s.fee_basis_points ++
          (writeLEBytes 2 s.sell_tax_basis_points ++
            (writeLEBytes 8 s.bootstrap_price_vusdt_numerator ++
              writeLEBytes 8 s.bootstrap_price_rng_denominator)))))

/-- `impl Read for AmmPool` (the two bootstrap-price fields are optional
trailing fields defaulting to the configured bootstrap constants). -/
def AmmPool.read (bs : List Nat) : Option (AmmPool × List Nat) :=
  match readLEBytes 8 bs with
  | none => none
  | some (reserve_rng, bs) =>
   match readLEBytes 8 bs with
   | none => none
   | some (reserve_vusdt, bs) =>
    match readLEBytes 8 bs with
    | none => none
    | some (total_shares, bs) =>
     match readLEBytes 2 bs with
     | none => none
     | some (fee_basis_points, bs) =>
      match readLEBytes 2 bs with
      | none => none
      | some (sell_tax_basis_points, bs) =>
       let (bootstrap_price_vusdt_numerator, bs) := readOptLE 8 AMM_BOOTSTRAP_PRICE_VUSDT_NUMERATOR bs
       let (bootstrap_price_rng_denominator, bs) := readOptLE 8 AMM_BOOTSTRAP_PRICE_RNG_DENOMINATOR bs
       some ({ reserve_rng, reserve_vusdt, total_shares, fee_basis_points, sell_tax_basis_points, bootstrap_price_vusdt_numerator, bootstrap_price_rng_denominator }, bs)

theorem ammPool_read_write (s : AmmPool) (h : s.WF) :
    AmmPool.read s.write = some (s, []) := by
  obtain ⟨h1, h2, h3, h4, h5, h6, h7⟩ := h
  rw [AmmPool.write, AmmPool.read]
  rw [readLEBytes_writeLEBytes_of_lt 8 _ _ (u64_lt_pow _ h1)]
  simp only []
  rw [readLEBytes_writeLEBytes_of_lt 8 _ _ (u64_lt_pow _ h2)]
  simp only []
  rw [readLEBytes_writeLEBytes_of_lt 8 _ _ (u64_lt_pow _ h3)]
  simp only []
  rw [readLEBytes_writeLEBytes_of_lt 2 _ _ (u16_lt_pow _ h4)]
  simp only []
  rw [readLEBytes_writeLEBytes_of_lt 2 _ _ (u16_lt_pow _ h5)]
  simp only []
  rw [readOptLE_write 8 _ _ _ (u64_lt_pow _ h6)]
  simp only []
  rw [readOptLE_write_nil 8 _ _ (u64_lt_pow _ h7)]

/-! ## TreasuryState -/

/-- Treasury allocation ledger (RNG buckets). -/
structure TreasuryState where
  auction_allocation_rng : Nat
  liquidity_reserve_rng : Nat
  bonus_pool_rng : Nat
  player_allocation_rng : Nat
  treasury_allocation_rng : Nat
  team_allocation_rng : Nat
deriving Repr, DecidableEq

def TreasuryState.WF (s : TreasuryState) : Prop :=
  U64 s.auction_allocation_rng ∧ U64 s.liquidity_reserve_rng ∧
    U64 s.bonus_pool_rng ∧ U64 s.player_allocation_rng ∧
    U64 s.treasury_allocation_rng ∧ U64 s.team_allocation_rng

instance (s : TreasuryState) : Decidable s.WF := by
  unfold TreasuryState.WF; infer_instance

/-- `impl Write for TreasuryState`. -/
def TreasuryState.write (s : TreasuryState) : List Nat :=
  writeLEBytes 8 s.auction_allocation_rng ++
    (writeLEBytes 8 s.liquidity_reserve_rng ++
      (writeLEBytes 8 s.bonus_pool_rng ++
        (writeLEBytes 8 s.player_allocation_rng ++
          (writeLEBytes 8 s.treasury_allocation_rng ++
            writeLEBytes 8 s.team_allocation_rng))))

/-- `impl Read for TreasuryState` (all six fields are mandatory; there is no
optional trailing handling in this reader). -/
def TreasuryState.read (bs : List Nat) : Option (TreasuryState × List Nat) :=
  match readLEBytes 8 bs with
  | none => none
  | some (auction_allocation_rng, bs) =>
   match readLEBytes 8 bs with
   | none => none
   | some (liquidity_reserve_rng, bs) =>
    match readLEBytes 8 bs with
    | none => none
    | some (bonus_pool_rng, bs) =>
     match readLEBytes 8 bs with
     | none => none
     | some (player_allocation_rng, bs) =>
      match readLEBytes 8 bs with
      | none => none
      | some (treasury_allocation_rng, bs) =>
       match readLEBytes 8 bs with
       | none => none
       | some (team_allocation_rng, bs) =>
        some ({ auction_allocation_rng, liquidity_reserve_rng, bonus_pool_rng, player_allocation_rng, treasury_allocation_rng, team_allocation_rng }, bs)

theorem treasuryState_read_write (s : TreasuryState) (h : s.WF) :
    TreasuryState.read s.write = some (s, []) := by
  obtain ⟨h1, h2, h3, h4, h5, h6⟩ := h
  rw [TreasuryState.write, TreasuryState.read]
  rw [readLEBytes_writeLEBytes_of_lt 8 _ _ (u64_lt_pow _ h1)]
  simp only []
  rw [readLEBytes_writeLEBytes_of_lt 8 _ _ (u64_lt_pow _ h2)]
  simp only []
  rw [readLEBytes_writeLEBytes_of_lt 8 _ _ (u64_lt_pow _ h3)]
  simp only []
  rw [readLEBytes_writeLEBytes_of_lt 8 _ _ (u64_lt_pow _ h4)]
  simp only []
  rw [readLEBytes_writeLEBytes_of_lt 8 _ _ (u64_lt_pow _ h5)]
  simp only []
  rw [readLEBytes_writeLEBytes_nil 8 _ (u64_lt_pow _ h6)]

/-! ## PolicyState -/

/-- Policy configuration for economy controls. -/
structure PolicyState where
  sell_tax_min_bps : Nat
  sell_tax_mid_bps : Nat
  sell_tax_max_bps : Nat
  sell_tax_outflow_low_bps : Nat
  sell_tax_outflow_mid_bps : Nat
  max_daily_sell_bps_balance : Nat
  max_daily_sell_bps_pool : Nat
  max_daily_buy_bps_balance : Nat
  max_daily_buy_bps_pool : Nat
  max_ltv_bps_new : Nat
  max_ltv_bps_mature : Nat
  liquidation_threshold_bps : Nat
  liquidation_target_bps : Nat
  liquidation_penalty_bps : Nat
  liquidation_reward_bps : Nat
  liquidation_stability_bps : Nat
  stability_fee_apr_bps : Nat
  debt_ceiling_bps : Nat
  credit_immediate_bps : Nat
  credit_vest_secs : Nat
  credit_expiry_secs : Nat
deriving Repr, DecidableEq

def PolicyState.WF (s : PolicyState) : Prop :=
  U16 s.sell_tax_min_bps ∧ U16 s.sell_tax_mid_bps ∧ U16 s.sell_tax_max_bps ∧
    U16 s.sell_tax_outflow_low_bps ∧ U16 s.sell_tax_outflow_mid_bps ∧
    U16 s.max_daily_sell_bps_balance ∧ U16 s.max_daily_sell_bps_pool ∧
    U16 s.max_daily_buy_bps_balance ∧ U16 s.max_daily_buy_bps_pool ∧
    U16 s.max_ltv_bps_new ∧ U16 s.max_ltv_bps_mature ∧
    U16 s.liquidation_threshold_bps ∧ U16 s.liquidation_target_bps ∧
    U16 s.liquidation_penalty_bps ∧ U16 s.liquidation_reward_bps ∧
    U16 s.liquidation_stability_bps ∧ U16 s.stability_fee_apr_bps ∧
    U16 s.debt_ceiling_bps ∧ U16 s.credit_immediate_bps ∧
    U64 s.credit_vest_secs ∧ U64 s.credit_expiry_secs

instance (s : PolicyState) : Decidable s.WF := by
  unfold PolicyState.WF; infer_instance

/-- `impl Write for PolicyState`. -/
def PolicyState.write (s : PolicyState) : List Nat :=
  writeLEBytes 2 s.sell_tax_min_bps ++
    (writeLEBytes 2 s.sell_tax_mid_bps ++
      (writeLEBytes 2 s.sell_tax_max_bps ++
        (writeLEBytes 2 s.sell_tax_outflow_low_bps ++
          (writeLEBytes 2 s.sell_tax_outflow_mid_bps ++
            (writeLEBytes 2 s.max_daily_sell_bps_balance ++
              (writeLEBytes 2 s.max_daily_sell_bps_pool ++
                (writeLEBytes 2 s.max_daily_buy_bps_balance ++
                  (writeLEBytes 2 s.max_daily_buy_bps_pool ++
                    (writeLEBytes 2 s.max_ltv_bps_new ++
                      (writeLEBytes 2 s.max_ltv_bps_mature ++
                        (writeLEBytes 2 s.liquidation_threshold_bps ++
                          (writeLEBytes 2 s.liquidation_target_bps ++
                            (writeLEBytes 2 s.liquidation_penalty_bps ++
                              (writeLEBytes 2 s.liquidation_reward_bps ++
                                (writeLEBytes 2 s.liquidation_stability_bps ++
                                  (writeLEBytes 2 s.stability_fee_apr_bps ++
                                    (writeLEBytes 2 s.debt_ceiling_bps ++
                                      (writeLEBytes 2 s.credit_immediate_bps ++
                                        (writeLEBytes 8 s.credit_vest_secs ++
                                          writeLEBytes 8 s.credit_expiry_secs)))))))))))))))))))

/-- `impl Read for PolicyState` (all 21 fields are mandatory; there is no
optional trailing handling in this reader). -/
def PolicyState.read (bs : List Nat) : Option (PolicyState × List Nat) :=
  match readLEBytes 2 bs with
  | none => none
  | some (sell_tax_min_bps, bs) =>
   match readLEBytes 2 bs with
   | none => none
   | some (sell_tax_mid_bps, bs) =>
    match readLEBytes 2 bs with
    | none => none
    | some (sell_tax_max_bps, bs) =>
     match readLEBytes 2 bs with
     | none => none
     | some (sell_tax_outflow_low_bps, bs) =>
      match readLEBytes 2 bs with
      | none => none
      | some (sell_tax_outflow_mid_bps, bs) =>
       match readLEBytes 2 bs with
       | none => none
       | some (max_daily_sell_bps_balance, bs) =>
        match readLEBytes 2 bs with
        | none => none
        | some (max_daily_sell_bps_pool, bs) =>
         match readLEBytes 2 bs with
         | none => none
         | some (max_daily_buy_bps_balance, bs) =>
          match readLEBytes 2 bs with
          | none => none
          | some (max_daily_buy_bps_pool, bs) =>
           match readLEBytes 2 bs with
           | none => none
           | some (max_ltv_bps_new, bs) =>
            match readLEBytes 2 bs with
            | none => none
            | some (max_ltv_bps_mature, bs) =>
             match readLEBytes 2 bs with
             | none => none
             | some (liquidation_threshold_bps, bs) =>
              match readLEBytes 2 bs with
              | none => none
              | some (liquidation_target_bps, bs) =>
               match readLEBytes 2 bs with
               | none => none
               | some (liquidation_penalty_bps, bs) =>
                match readLEBytes 2 bs with
                | none => none
                | some (liquidation_reward_bps, bs) =>
                 match readLEBytes 2 bs with
                 | none => none
                 | some (liquidation_stability_bps, bs) =>
                  match readLEBytes 2 bs with
                  | none => none
                  | some (stability_fee_apr_bps, bs) =>
                   match readLEBytes 2 bs with
                   | none => none
                   | some (debt_ceiling_bps, bs) =>
                    match readLEBytes 2 bs with
                    | none => none
                    | some (credit_immediate_bps, bs) =>
                     match readLEBytes 8 bs with
                     | none => none
                     | some (credit_vest_secs, bs) =>
                      match readLEBytes 8 bs with
                      | none => none
                      | some (credit_expiry_secs, bs) =>
                       some ({ sell_tax_min_bps, sell_tax_mid_bps, sell_tax_max_bps, sell_tax_outflow_low_bps, sell_tax_outflow_mid_bps, max_daily_sell_bps_balance, max_daily_sell_bps_pool, max_daily_buy_bps_balance, max_daily_buy_bps_pool, max_ltv_bps_new, max_ltv_bps_mature, liquidation_threshold_bps, liquidation_target_bps, liquidation_penalty_bps, liquidation_reward_bps, liquidation_stability_bps, stability_fee_apr_bps, debt_ceiling_bps, credit_immediate_bps, credit_vest_secs, credit_expiry_secs }, bs)

theorem policyState_read_write (s : PolicyState) (h : s.WF) :
    PolicyState.read s.write = some (s, []) := by
  obtain ⟨h1, h2, h3, h4, h5, h6, h7, h8, h9, h10, h11, h12, h13, h14, h15,
    h16, h17, h18, h19, h20, h21⟩ := h
  rw [PolicyState.write, PolicyState.read]
  rw [readLEBytes_writeLEBytes_of_lt 2 _ _ (u16_lt_pow _ h1)]
  simp only []
  rw [readLEBytes_writeLEBytes_of_lt 2 _ _ (u16_lt_pow _ h2)]
  simp only []
  rw [readLEBytes_writeLEBytes_of_lt 2 _ _ (u16_lt_pow _ h3)]
  simp only []
  rw [readLEBytes_writeLEBytes_of_lt 2 _ _ (u16_lt_pow _ h4)]
  simp only []
  rw [readLEBytes_writeLEBytes_of_lt 2 _ _ (u16_lt_pow _ h5)]
  simp only []
  rw [readLEBytes_writeLEBytes_of_lt 2 _ _ (u16_lt_pow _ h6)]
  simp only []
  rw [readLEBytes_writeLEBytes_of_lt 2 _ _ (u16_lt_pow _ h7)]
  simp only []
  rw [readLEBytes_writeLEBytes_of_lt 2 _ _ (u16_lt_pow _ h8)]
  simp only []
  rw [readLEBytes_writeLEBytes_of_lt 2 _ _ (u16_lt_pow _ h9)]
  simp only []
  rw [readLEBytes_writeLEBytes_of_lt 2 _ _ (u16_lt_pow _ h10)]
  simp only []
  rw [readLEBytes_writeLEBytes_of_lt 2 _ _ (u16_lt_pow _ h11)]
  simp only []
  rw [readLEBytes_writeLEBytes_of_lt 2 _ _ (u16_lt_pow _ h12)]
  simp only []
  rw [readLEBytes_writeLEBytes_of_lt 2 _ _ (u16_lt_pow _ h13)]
  simp only []
  rw [readLEBytes_writeLEBytes_of_lt 2 _ _ (u16_lt_pow _ h14)]
  simp only []
  rw [readLEBytes_writeLEBytes_of_lt 2 _ _ (u16_lt_pow _ h15)]
  simp only []
  rw [readLEBytes_writeLEBytes_of_lt 2 _ _ (u16_lt_pow _ h16)]
  simp only []
  rw [readLEBytes_writeLEBytes_of_lt 2 _ _ (u16_lt_pow _ h17)]
  simp only []
  rw [readLEBytes_writeLEBytes_of_lt 2 _ _ (u16_lt_pow _ h18)]
  simp only []
  rw [readLEBytes_writeLEBytes_of_lt 2 _ _ (u16_lt_pow _ h19)]
  simp only []
  rw [readLEBytes_writeLEBytes_of_lt 8 _ _ (u64_lt_pow _ h20)]
  simp only []
  rw [readLEBytes_writeLEBytes_nil 8 _ (u64_lt_pow _ h21)]

/-! ## HouseState -/

/-- House state for the "Central Bank" model. -/
structure HouseState where
  current_epoch : Nat
  epoch_start_ts : Nat
  net_pnl : Int
  total_staked_amount : Nat
  total_voting_power : Nat
  accumulated_fees : Nat
  total_burned : Nat
  total_issuance : Nat
  total_vusdt_debt : Nat
  stability_fees_accrued : Nat
  recovery_pool_vusdt : Nat
  recovery_pool_retired : Nat
  three_card_progressive_jackpot : Nat
  uth_progressive_jackpot : Nat
  staking_reward_per_voting_power_x18 : Nat
  staking_reward_pool : Nat
  staking_reward_carry : Nat
deriving Repr, DecidableEq

def HouseState.WF (s : HouseState) : Prop :=
  U64 s.current_epoch ∧ U64 s.epoch_start_ts ∧ I128 s.net_pnl ∧
    U64 s.total_staked_amount ∧ U128 s.total_voting_power ∧
    U64 s.accumulated_fees ∧ U64 s.total_burned ∧ U64 s.total_issuance ∧
    U64 s.total_vusdt_debt ∧ U64 s.stability_fees_accrued ∧
    U64 s.recovery_pool_vusdt ∧ U64 s.recovery_pool_retired ∧
    U64 s.three_card_progressive_jackpot ∧ U64 s.uth_progressive_jackpot ∧
    U128 s.staking_reward_per_voting_power_x18 ∧
    U64 s.staking_reward_pool ∧ U64 s.staking_reward_carry

instance (s : HouseState) : Decidable s.WF := by
  unfold HouseState.WF; infer_instance

/-- `impl Write for HouseState`. -/
def HouseState.write (s : HouseState) : List Nat :=
  writeLEBytes 8 s.current_epoch ++
    (writeLEBytes 8 s.epoch_start_ts ++
      (writeI128 s.net_pnl ++
        (writeLEBytes 8 s.total_staked_amount ++
          (writeLEBytes 16 s.total_voting_power ++
            (writeLEBytes 8 s.accumulated_fees ++
              (writeLEBytes 8 s.total_burned ++
                (writeLEBytes 8 s.total_issuance ++
                  (writeLEBytes 8 s.total_vusdt_debt ++
                    (writeLEBytes 8 s.stability_fees_accrued ++
                      (writeLEBytes 8 s.recovery_pool_vusdt ++
                        (writeLEBytes 8 s.recovery_pool_retired ++
                          (writeLEBytes 8 s.three_card_progressive_jackpot ++
                            (writeLEBytes 8 s.uth_progressive_jackpot ++
                              (writeLEBytes 16 s.staking_reward_per_voting_power_x18 ++
                                (writeLEBytes 8 s.staking_reward_pool ++
                                  writeLEBytes 8 s.staking_reward_carry)))))))))))))))

/-- `impl Read for HouseState`: the first eight fields (`current_epoch`
through `total_issuance`) are mandatory; every field from `total_vusdt_debt`
onward is an optional trailing field (defaulting to 0, except the two
progressive jackpots which default to their configured base constants). -/
def HouseState.read (bs : List Nat) : Option (HouseState × List Nat) :=
  match readLEBytes 8 bs with
  | none => none
  | some (current_epoch, bs) =>
   match readLEBytes 8 bs with
   | none => none
   | some (epoch_start_ts, bs) =>
    match readI128 bs with
    | none => none
    | some (net_pnl, bs) =>
     match readLEBytes 8 bs with
     | none => none
     | some (total_staked_amount, bs) =>
      match readLEBytes 16 bs with
      | none => none
      | some (total_voting_power, bs) =>
       match readLEBytes 8 bs with
       | none => none
       | some (accumulated_fees, bs) =>
        match readLEBytes 8 bs with
        | none => none
        | some (total_burned, bs) =>
         match readLEBytes 8 bs with
         | none => none
         | some (total_issuance, bs) =>
          let (total_vusdt_debt, bs) := readOptLE 8 0 bs
          let (stability_fees_accrued, bs) := readOptLE 8 0 bs
          let (recovery_pool_vusdt, bs) := readOptLE 8 0 bs
          let (recovery_pool_retired, bs) := readOptLE 8 0 bs
          let (three_card_progressive_jackpot, bs) :=
            readOptLE 8 THREE_CARD_PROGRESSIVE_BASE_JACKPOT bs
          let (uth_progressive_jackpot, bs) :=
            readOptLE 8 UTH_PROGRESSIVE_BASE_JACKPOT bs
          let (staking_reward_per_voting_power_x18, bs) := readOptLE 16 0 bs
          let (staking_reward_pool, bs) := readOptLE 8 0 bs
          let (staking_reward_carry, bs) := readOptLE 8 0 bs
          some ({ current_epoch, epoch_start_ts, net_pnl, total_staked_amount,
                  total_voting_power, accumulated_fees, total_burned,
                  total_issuance, total_vusdt_debt, stability_fees_accrued,
                  recovery_pool_vusdt, recovery_pool_retired,
                  three_card_progressive_jackpot, uth_progressive_jackpot,
                  staking_reward_per_voting_power_x18, staking_reward_pool,
                  staking_reward_carry }, bs)

theorem houseState_read_write (s : HouseState) (h : s.WF) :
    HouseState.read s.write = some (s, []) := by
  obtain ⟨h1, h2, h3, h4, h5, h6, h7, h8, h9, h10, h11, h12, h13, h14, h15,
    h16, h17⟩ := h
  rw [HouseState.write, HouseState.read]
  rw [readLEBytes_writeLEBytes_of_lt 8 _ _ (u64_lt_pow _ h1)]
  simp only []
  rw [readLEBytes_writeLEBytes_of_lt 8 _ _ (u64_lt_pow _ h2)]
  simp only []
  rw [readI128_writeI128 _ _ h3.1 h3.2]
  simp only []
  rw [readLEBytes_writeLEBytes_of_lt 8 _ _ (u64_lt_pow _ h4)]
  simp only []
  rw [readLEBytes_writeLEBytes_of_lt 16 _ _ (u128_lt_pow _ h5)]
  simp only []
  rw [readLEBytes_writeLEBytes_of_lt 8 _ _ (u64_lt_pow _ h6)]
  simp only []
  rw [readLEBytes_writeLEBytes_of_lt 8 _ _ (u64_lt_pow _ h7)]
  simp only []
  rw [readLEBytes_writeLEBytes_of_lt 8 _ _ (u64_lt_pow _ h8)]
  simp only []
  rw [readOptLE_write 8 _ _ _ (u64_lt_pow _ h9)]
  simp only []
  rw [readOptLE_write 8 _ _ _ (u64_lt_pow _ h10)]
  simp only []
  rw [readOptLE_write 8 _ _ _ (u64_lt_pow _ h11)]
  simp only []
  rw [readOptLE_write 8 _ _ _ (u64_lt_pow _ h12)]
  simp only []
  rw [readOptLE_write 8 _ _ _ (u64_lt_pow _ h13)]
  simp only []
  rw [readOptLE_write 8 _ _ _ (u64_lt_pow _ h14)]
  simp only []
  rw [readOptLE_write 16 _ _ _ (u128_lt_pow _ h15)]
  simp only []
  rw [readOptLE_write 8 _ _ _ (u64_lt_pow _ h16)]
  simp only []
  rw [readOptLE_write_nil 8 _ _ (u64_lt_pow _ h17)]

/-! ## VaultRegistry

Public keys are opaque 32-byte arrays ordered bytewise (the derived `Ord` on
`[u8; 32]` is lexicographic); we embed them as naturals below `256^32` in
big-endian byte order, which is order-preserving.  Cryptographic validity of
keys is a black-box concern of the crypto layer and is not modelled.  The
`Vec` codec is length-prefixed with a base-128 varint (7 value bits per byte,
high bit as continuation flag). -/

/-- Write `k` bytes of `v`, big-endian (most significant byte first). -/
def writeBEBytes : Nat → Nat → List Nat
  | 0, _ => []
  | k + 1, v => v / 256 ^ k :: writeBEBytes k (v % 256 ^ k)

/-- Read `k` big-endian bytes; `none` when fewer than `k` bytes remain. -/
def readBEBytes : Nat → List Nat → Option (Nat × List Nat)
  | 0, bs => some (0, bs)
  | _ + 1, [] => none
  | k + 1, b :: bs =>
    match readBEBytes k bs with
    | some (v, rest) => some (b * 256 ^ k + v, rest)
    | none => none

@[simp] theorem writeBEBytes_length (k v : Nat) : (writeBEBytes k v).length = k := by
  induction k generalizing v with
  | zero => rfl
  | succ k ih => simp [writeBEBytes, ih]

theorem readBEBytes_writeBEBytes (k v : Nat) (rest : List Nat) (h : v < 256 ^ k) :
    readBEBytes k (writeBEBytes k v ++ rest) = some (v, rest) := by
  induction k generalizing v with
  | zero =>
    have hv : v = 0 := by simpa [Nat.lt_one_iff] using h
    subst hv
    rfl
  | succ k ih =>
    show readBEBytes (k + 1) (v / 256 ^ k :: (writeBEBytes k (v % 256 ^ k) ++ rest)) = _
    rw [readBEBytes, ih _ (Nat.mod_lt _ (by positivity))]
    show some (v / 256 ^ k * 256 ^ k + v % 256 ^ k, rest) = _
    have hdm : v / 256 ^ k * 256 ^ k + v % 256 ^ k = v := by
      rw [Nat.mul_comm]
      exact Nat.div_add_mod v (256 ^ k)
    rw [hdm]

theorem readBEBytes_none_of_short (k : Nat) (bs : List Nat) (h : bs.length < k) :
    readBEBytes k bs = none := by
  induction k generalizing bs with
  | zero => omega
  | succ k ih =>
    cases bs with
    | nil => rfl
    | cons b bs =>
      simp only [readBEBytes]
      rw [ih bs (by simpa using h)]

/-- Base-128 varint reader (bounded-fuel writer below; the fuel `n + 1` always
suffices since the value strictly shrinks by a factor of 128 per byte). -/
def readVarint : List Nat → Option (Nat × List Nat)
  | [] => none
  | b :: bs =>
    if b < 128 then some (b, bs)
    else
      match readVarint bs with
      | some (v, rest) => some ((b - 128) + 128 * v, rest)
      | none => none

def writeVarintFuel : Nat → Nat → List Nat
  | 0, _ => []
  | fuel + 1, n => if n < 128 then [n] else (n % 128 + 128) :: writeVarintFuel fuel (n / 128)

/-- Base-128 varint writer. -/
def writeVarint (n : Nat) : List Nat := writeVarintFuel (n + 1) n

theorem readVarint_writeVarintFuel (fuel n : Nat) (rest : List Nat)
    (h : n + 1 ≤ fuel) :
    readVarint (writeVarintFuel fuel n ++ rest) = some (n, rest) := by
  induction fuel generalizing n with
  | zero => omega
  | succ fuel ih =>
    rw [writeVarintFuel]
    split
    · rename_i hlt
      show readVarint (n :: rest) = _
      rw [readVarint, if_pos hlt]
    · rename_i hge
      show readVarint ((n % 128 + 128) :: (writeVarintFuel fuel (n / 128) ++ rest)) = _
      rw [readVarint]
      rw [if_neg (by omega)]
      rw [ih (n / 128) (by omega)]
      show some (n % 128 + 128 - 128 + 128 * (n / 128), rest) = _
      have hn : n % 128 + 128 - 128 + 128 * (n / 128) = n := by omega
      rw [hn]

theorem readVarint_writeVarint (n : Nat) (rest : List Nat) :
    readVarint (writeVarint n ++ rest) = some (n, rest) :=
  readVarint_writeVarintFuel (n + 1) n rest (Nat.le_refl _)

/-- Bound for an embedded 32-byte public key. -/
def PK (n : Nat) : Prop := n < 2 ^ 256

instance (n : Nat) : Decidable (PK n) := by unfold PK; infer_instance

theorem pk_lt_pow (n : Nat) (h : PK n) : n < 256 ^ 32 := by
  have h2 : (256 : Nat) ^ 32 = 2 ^ 256 := by norm_num
  rw [h2]; exact h

/-- Serialize a list of 32-byte public keys back to back. -/
def writeVaultItems : List Nat → List Nat
  | [] => []
  | pk :: t => writeBEBytes 32 pk ++ writeVaultItems t

/-- Read exactly `n` 32-byte public keys. -/
def readVaultList : Nat → List Nat → Option (List Nat × List Nat)
  | 0, bs => some ([], bs)
  | n + 1, bs =>
    match readBEBytes 32 bs with
    | none => none
    | some (pk, bs) =>
      match readVaultList n bs with
      | some (l, rest) => some (pk :: l, rest)
      | none => none

theorem readVaultList_writeVaultItems (l : List Nat) (rest : List Nat)
    (h : ∀ x ∈ l, PK x) :
    readVaultList l.length (writeVaultItems l ++ rest) = some (l, rest) := by
  induction l with
  | nil => rfl
  | cons pk t ih =>
    show readVaultList (t.length + 1) (writeBEBytes 32 pk ++ writeVaultItems t ++ rest) = _
    rw [readVaultList, List.append_assoc,
      readBEBytes_writeBEBytes 32 pk _ (pk_lt_pow pk (h pk (List.mem_cons_self pk t)))]
    simp only []
    rw [ih (fun x hx => h x (List.mem_cons_of_mem pk hx))]

theorem readVaultList_length (n : Nat) (bs : List Nat) (l rest : List Nat)
    (h : readVaultList n bs = some (l, rest)) : l.length = n := by
  induction n generalizing bs l rest with
  | zero =>
    rw [readVaultList] at h
    cases h
    rfl
  | succ n ih =>
    rw [readVaultList] at h
    rcases hr : readBEBytes 32 bs with _ | ⟨pk, bs2⟩
    · rw [hr] at h; exact absurd h (by simp)
    · rw [hr] at h
      simp only [] at h
      rcases hl : readVaultList n bs2 with _ | ⟨l2, rest2⟩
      · rw [hl] at h; exact absurd h (by simp)
      · rw [hl] at h
        simp only [Option.some.injEq, Prod.mk.injEq] at h
        obtain ⟨hl2, -⟩ := h
        subst hl2
        simp [ih bs2 l2 rest2 hl]

/-- Remove adjacent duplicates (mirror of `Vec::dedup` after sorting). -/
def dedupAdj : List Nat → List Nat
  | [] => []
  | [a] => [a]
  | a :: b :: t => if a = b then dedupAdj (b :: t) else a :: dedupAdj (b :: t)

theorem dedupAdj_subset (l : List Nat) : ∀ x ∈ dedupAdj l, x ∈ l := by
  induction l with
  | nil => simp [dedupAdj]
  | cons a t ih =>
    cases t with
    | nil => simp [dedupAdj]
    | cons b t2 =>
      intro x hx
      rw [dedupAdj] at hx
      split at hx
      · exact List.mem_cons_of_mem a (ih x hx)
      · rcases List.mem_cons.mp hx with hxa | hxm
        · exact hxa ▸ List.mem_cons_self a (b :: t2)
        · exact List.mem_cons_of_mem a (ih x hxm)

theorem dedupAdj_length_le (l : List Nat) : (dedupAdj l).length ≤ l.length := by
  induction l with
  | nil => simp [dedupAdj]
  | cons a t ih =>
    cases t with
    | nil => simp [dedupAdj]
    | cons b t2 =>
      rw [dedupAdj]
      split
      · exact Nat.le_succ_of_le ih
      · simpa using ih

theorem dedupAdj_sorted_lt (l : List Nat) (h : l.Sorted (· ≤ ·)) :
    (dedupAdj l).Sorted (· < ·) := by
  induction l with
  | nil => simp [dedupAdj]
  | cons a t ih =>
    cases t with
    | nil => simp [dedupAdj]
    | cons b t2 =>
      rw [List.sorted_cons] at h
      obtain ⟨hall, htail⟩ := h
      rw [dedupAdj]
      split
      · exact ih htail
      · rename_i hne
        rw [List.sorted_cons]
        refine ⟨?_, ih htail⟩
        intro x hx
        have hxmem : x ∈ b :: t2 := dedupAdj_subset _ x hx
        have hax : a ≤ x := hall x hxmem
        have hab : a ≤ b := hall b (List.mem_cons_self b t2)
        rw [List.sorted_cons] at htail
        rcases List.mem_cons.mp hxmem with hxb | hxt
        · subst hxb; omega
        · have := htail.1 x hxt
          omega

theorem dedupAdj_of_sorted_lt (l : List Nat) (h : l.Sorted (· < ·)) :
    dedupAdj l = l := by
  induction l with
  | nil => rfl
  | cons a t ih =>
    cases t with
    | nil => rfl
    | cons b t2 =>
      rw [List.sorted_cons] at h
      obtain ⟨hall, htail⟩ := h
      have hab : a < b := hall b (List.mem_cons_self b t2)
      rw [dedupAdj, if_neg (by omega)]
      rw [ih htail]

/-- Registry of vault owners for recovery pool ordering and audits. -/
structure VaultRegistry where
  vaults : List Nat
deriving Repr, DecidableEq

/-- Well-formedness per the spec's data model: a sorted, deduplicated list of
public keys, bounded by 100000 entries (each key is a 32-byte value). -/
def VaultRegistry.WF (s : VaultRegistry) : Prop :=
  (∀ x ∈ s.vaults, PK x) ∧ s.vaults.Sorted (· < ·) ∧ s.vaults.length ≤ 100000

instance (s : VaultRegistry) : Decidable s.WF := by
  unfold VaultRegistry.WF
  infer_instance

/-- `impl Write for VaultRegistry`: the `Vec` codec writes a varint length
prefix followed by the elements. -/
def VaultRegistry.write (s : VaultRegistry) : List Nat :=
  writeVarint s.vaults.length ++ writeVaultItems s.vaults

/-- `impl Read for VaultRegistry`: `read_range` with range `0..=100_000`
(rejecting any length prefix outside the range), then `sort_unstable`
followed by `dedup`. -/
def VaultRegistry.read (bs : List Nat) : Option (VaultRegistry × List Nat) :=
  match readVarint bs with
  | none => none
  | some (n, bs) =>
    if n ≤ 100000 then
      match readVaultList n bs with
      | none => none
      | some (vaults, bs) =>
        some ({ vaults := dedupAdj (List.insertionSort (· ≤ ·) vaults) }, bs)
    else none

theorem vaultRegistry_read_write (s : VaultRegistry) (h : s.WF) :
    VaultRegistry.read s.write = some (s, []) := by
  obtain ⟨hpk, hsorted, hlen⟩ := h
  rw [VaultRegistry.write, VaultRegistry.read, readVarint_writeVarint]
  simp only []
  rw [if_pos hlen]
  have hitems := readVaultList_writeVaultItems s.vaults [] hpk
  rw [List.append_nil] at hitems
  rw [hitems]
  simp only []
  have hle : s.vaults.Sorted (· ≤ ·) :=
    hsorted.imp (fun hab => Nat.le_of_lt hab)
  rw [List.Sorted.insertionSort_eq hle, dedupAdj_of_sorted_lt _ hsorted]

/-- Any successfully deserialized registry is sorted, deduplicated and
bounded, whatever the input bytes were. -/
theorem VaultRegistry.read_invariant (bs : List Nat) (reg : VaultRegistry)
    (rest : List Nat) (h : VaultRegistry.read bs = some (reg, rest)) :
    reg.vaults.Sorted (· ≤ ·) ∧ reg.vaults.Nodup ∧ reg.vaults.length ≤ 100000 := by
  rw [VaultRegistry.read] at h
  rcases hv : readVarint bs with _ | ⟨n, bs2⟩
  · rw [hv] at h; exact absurd h (by simp)
  · rw [hv] at h
    simp only [] at h
    split at h
    · rename_i hn
      rcases hl : readVaultList n bs2 with _ | ⟨vaults, bs3⟩
      · rw [hl] at h; exact absurd h (by simp)
      · rw [hl] at h
        simp only [] at h
        simp only [Option.some.injEq, Prod.mk.injEq] at h
        obtain ⟨hreg, -⟩ := h
        have hsorted : (dedupAdj (List.insertionSort (· ≤ ·) vaults)).Sorted (· < ·) :=
          dedupAdj_sorted_lt _ (List.sorted_insertionSort (· ≤ ·) vaults)
        have hlen : (dedupAdj (List.insertionSort (· ≤ ·) vaults)).length ≤ 100000 := by
            calc (dedupAdj (List.insertionSort (· ≤ ·) vaults)).length
                ≤ (List.insertionSort (· ≤ ·) vaults).length := dedupAdj_length_le _
              _ = vaults.length := List.length_insertionSort _ _
              _ = n := readVaultList_length n bs2 vaults bs3 hl
              _ ≤ 100000 := hn
        subst hreg
        exact ⟨hsorted.imp (fun hab => Nat.le_of_lt hab), hsorted.nodup, hlen⟩
    · exact absurd h (by simp)

/-- A length prefix above 100000 is rejected before any element is read. -/
theorem VaultRegistry.read_reject_overflow (bs : List Nat) (n : Nat)
    (rest : List Nat) (hv : readVarint bs = some (n, rest))
    (hn : 100000 < n) : VaultRegistry.read bs = none := by
  rw [VaultRegistry.read, hv]
  simp only []
  rw [if_neg (by omega)]

/-! ## Truncated decodes (forward compatibility)

Each theorem below takes the full encoding of an entity, truncates it at a
field boundary at or after the last mandatory field, decodes the prefix and
obtains the original entity with every missing trailing field replaced by its
documented default. -/

theorem take_app (A B : List Nat) (n : Nat) (h : A.length ≤ n) :
    (A ++ B).take n = A ++ B.take (n - A.length) := by
  rw [List.take_append_eq_append_take, List.take_of_length_le h]

@[simp] theorem writeI128_length (v : Int) : (writeI128 v).length = 16 := by
  rw [writeI128, writeLEBytes_length]

/-- Decoding the encoding of a `HouseState` truncated to its first 8 fields
(80 bytes) succeeds, defaulting every missing trailing field. -/
theorem houseState_read_take80 (s : HouseState) (h : s.WF) :
    HouseState.read ((HouseState.write s).take 80) =
      some ({ s with total_vusdt_debt := 0, stability_fees_accrued := 0, recovery_pool_vusdt := 0, recovery_pool_retired := 0, three_card_progressive_jackpot := THREE_CARD_PROGRESSIVE_BASE_JACKPOT, uth_progressive_jackpot := UTH_PROGRESSIVE_BASE_JACKPOT, staking_reward_per_voting_power_x18 := 0, staking_reward_pool := 0, staking_reward_carry := 0 }, []) := by
  obtain ⟨h1, h2, h3, h4, h5, h6, h7, h8, h9, h10, h11, h12, h13, h14, h15, h16, h17⟩ := h
  rw [HouseState.write]
  simp [take_app]
  rw [HouseState.read]
  rw [readLEBytes_writeLEBytes_of_lt 8 _ _ (u64_lt_pow _ h1)]
  simp only []
  rw [readLEBytes_writeLEBytes_of_lt 8 _ _ (u64_lt_pow _ h2)]
  simp only []
  rw [readI128_writeI128 _ _ h3.1 h3.2]
  simp only []
  rw [readLEBytes_writeLEBytes_of_lt 8 _ _ (u64_lt_pow _ h4)]
  simp only []
  rw [readLEBytes_writeLEBytes_of_lt 16 _ _ (u128_lt_pow _ h5)]
  simp only []
  rw [readLEBytes_writeLEBytes_of_lt 8 _ _ (u64_lt_pow _ h6)]
  simp only []
  rw [readLEBytes_writeLEBytes_of_lt 8 _ _ (u64_lt_pow _ h7)]
  simp only []
  rw [readLEBytes_writeLEBytes_nil 8 _ (u64_lt_pow _ h8)]
  simp only []
  rw [readOptLE_nil 8 0 (by omega)]
  simp only []
  rw [readOptLE_nil 8 0 (by omega)]
  simp only []
  rw [readOptLE_nil 8 0 (by omega)]
  simp only []
  rw [readOptLE_nil 8 0 (by omega)]
  simp only []
  rw [readOptLE_nil 8 THREE_CARD_PROGRESSIVE_BASE_JACKPOT (by omega)]
  simp only []
  rw [readOptLE_nil 8 UTH_PROGRESSIVE_BASE_JACKPOT (by omega)]
  simp only []
  rw [readOptLE_nil 16 0 (by omega)]
  simp only []
  rw [readOptLE_nil 8 0 (by omega)]
  simp only []
  rw [readOptLE_nil 8 0 (by omega)]

/-- Decoding the encoding of a `HouseState` truncated to its first 9 fields
(88 bytes) succeeds, defaulting every missing trailing field. -/
theorem houseState_read_take88 (s : HouseState) (h : s.WF) :
    HouseState.read ((HouseState.write s).take 88) =
      some ({ s with stability_fees_accrued := 0, recovery_pool_vusdt := 0, recovery_pool_retired := 0, three_card_progressive_jackpot := THREE_CARD_PROGRESSIVE_BASE_JACKPOT, uth_progressive_jackpot := UTH_PROGRESSIVE_BASE_JACKPOT, staking_reward_per_voting_power_x18 := 0, staking_reward_pool := 0, staking_reward_carry := 0 }, []) := by
  obtain ⟨h1, h2, h3, h4, h5, h6, h7, h8, h9, h10, h11, h12, h13, h14, h15, h16, h17⟩ := h
  rw [HouseState.write]
  simp [take_app]
  rw [HouseState.read]
  rw [readLEBytes_writeLEBytes_of_lt 8 _ _ (u64_lt_pow _ h1)]
  simp only []
  rw [readLEBytes_writeLEBytes_of_lt 8 _ _ (u64_lt_pow _ h2)]
  simp only []
  rw [readI128_writeI128 _ _ h3.1 h3.2]
  simp only []
  rw [readLEBytes_writeLEBytes_of_lt 8 _ _ (u64_lt_pow _ h4)]
  simp only []
  rw [readLEBytes_writeLEBytes_of_lt 16 _ _ (u128_lt_pow _ h5)]
  simp only []
  rw [readLEBytes_writeLEBytes_of_lt 8 _ _ (u64_lt_pow _ h6)]
  simp only []
  rw [readLEBytes_writeLEBytes_of_lt 8 _ _ (u64_lt_pow _ h7)]
  simp only []
  rw [readLEBytes_writeLEBytes_of_lt 8 _ _ (u64_lt_pow _ h8)]
  simp only []
  rw [readOptLE_write_nil 8 _ _ (u64_lt_pow _ h9)]
  simp only []
  rw [readOptLE_nil 8 0 (by omega)]
  simp only []
  rw [readOptLE_nil 8 0 (by omega)]
  simp only []
  rw [readOptLE_nil 8 0 (by omega)]
  simp only []
  rw [readOptLE_nil 8 THREE_CARD_PROGRESSIVE_BASE_JACKPOT (by omega)]
  simp only []
  rw [readOptLE_nil 8 UTH_PROGRESSIVE_BASE_JACKPOT (by omega)]
  simp only []
  rw [readOptLE_nil 16 0 (by omega)]
  simp only []
  rw [readOptLE_nil 8 0 (by omega)]
  simp only []
  rw [readOptLE_nil 8 0 (by omega)]

/-- Decoding the encoding of a `HouseState` truncated to its first 10 fields
(96 bytes) succeeds, defaulting every missing trailing field. -/
theorem houseState_read_take96 (s : HouseState) (h : s.WF) :
    HouseState.read ((HouseState.write s).take 96) =
      some ({ s with recovery_pool_vusdt := 0, recovery_pool_retired := 0, three_card_progressive_jackpot := THREE_CARD_PROGRESSIVE_BASE_JACKPOT, uth_progressive_jackpot := UTH_PROGRESSIVE_BASE_JACKPOT, staking_reward_per_voting_power_x18 := 0, staking_reward_pool := 0, staking_reward_carry := 0 }, []) := by
  obtain ⟨h1, h2, h3, h4, h5, h6, h7, h8, h9, h10, h11, h12, h13, h14, h15, h16, h17⟩ := h
  rw [HouseState.write]
  simp [take_app]
  rw [HouseState.read]
  rw [readLEBytes_writeLEBytes_of_lt 8 _ _ (u64_lt_pow _ h1)]
  simp only []
  rw [readLEBytes_writeLEBytes_of_lt 8 _ _ (u64_lt_pow _ h2)]
  simp only []
  rw [readI128_writeI128 _ _ h3.1 h3.2]
  simp only []
  rw [readLEBytes_writeLEBytes_of_lt 8 _ _ (u64_lt_pow _ h4)]
  simp only []
  rw [readLEBytes_writeLEBytes_of_lt 16 _ _ (u128_lt_pow _ h5)]
  simp only []
  rw [readLEBytes_writeLEBytes_of_lt 8 _ _ (u64_lt_pow _ h6)]
  simp only []
  rw [readLEBytes_writeLEBytes_of_lt 8 _ _ (u64_lt_pow _ h7)]
  simp only []
  rw [readLEBytes_writeLEBytes_of_lt 8 _ _ (u64_lt_pow _ h8)]
  simp only []
  rw [readOptLE_write 8 _ _ _ (u64_lt_pow _ h9)]
  simp only []
  rw [readOptLE_write_nil 8 _ _ (u64_lt_pow _ h10)]
  simp only []
  rw [readOptLE_nil 8 0 (by omega)]
  simp only []
  rw [readOptLE_nil 8 0 (by omega)]
  simp only []
  rw [readOptLE_nil 8 THREE_CARD_PROGRESSIVE_BASE_JACKPOT (by omega)]
  simp only []
  rw [readOptLE_nil 8 UTH_PROGRESSIVE_BASE_JACKPOT (by omega)]
  simp only []
  rw [readOptLE_nil 16 0 (by omega)]
  simp only []
  rw [readOptLE_nil 8 0 (by omega)]
  simp only []
  rw [readOptLE_nil 8 0 (by omega)]

/-- Decoding the encoding of a `HouseState` truncated to its first 11 fields
(104 bytes) succeeds, defaulting every missing trailing field. -/
theorem houseState_read_take104 (s : HouseState) (h : s.WF) :
    HouseState.read ((HouseState.write s).take 104) =
      some ({ s with recovery_pool_retired := 0, three_card_progressive_jackpot := THREE_CARD_PROGRESSIVE_BASE_JACKPOT, uth_progressive_jackpot := UTH_PROGRESSIVE_BASE_JACKPOT, staking_reward_per_voting_power_x18 := 0, staking_reward_pool := 0, staking_reward_carry := 0 }, []) := by
  obtain ⟨h1, h2, h3, h4, h5, h6, h7, h8, h9, h10, h11, h12, h13, h14, h15, h16, h17⟩ := h
  rw [HouseState.write]
  simp [take_app]
  rw [HouseState.read]
  rw [readLEBytes_writeLEBytes_of_lt 8 _ _ (u64_lt_pow _ h1)]
  simp only []
  rw [readLEBytes_writeLEBytes_of_lt 8 _ _ (u64_lt_pow _ h2)]
  simp only []
  rw [readI128_writeI128 _ _ h3.1 h3.2]
  simp only []
  rw [readLEBytes_writeLEBytes_of_lt 8 _ _ (u64_lt_pow _ h4)]
  simp only []
  rw [readLEBytes_writeLEBytes_of_lt 16 _ _ (u128_lt_pow _ h5)]
  simp only []
  rw [readLEBytes_writeLEBytes_of_lt 8 _ _ (u64_lt_pow _ h6)]
  simp only []
  rw [readLEBytes_writeLEBytes_of_lt 8 _ _ (u64_lt_pow _ h7)]
  simp only []
  rw [readLEBytes_writeLEBytes_of_lt 8 _ _ (u64_lt_pow _ h8)]
  simp only []
  rw [readOptLE_write 8 _ _ _ (u64_lt_pow _ h9)]
  simp only []
  rw [readOptLE_write 8 _ _ _ (u64_lt_pow _ h10)]
  simp only []
  rw [readOptLE_write_nil 8 _ _ (u64_lt_pow _ h11)]
  simp only []
  rw [readOptLE_nil 8 0 (by omega)]
  simp only []
  rw [readOptLE_nil 8 THREE_CARD_PROGRESSIVE_BASE_JACKPOT (by omega)]
  simp only []
  rw [readOptLE_nil 8 UTH_PROGRESSIVE_BASE_JACKPOT (by omega)]
  simp only []
  rw [readOptLE_nil 16 0 (by omega)]
  simp only []
  rw [readOptLE_nil 8 0 (by omega)]
  simp only []
  rw [readOptLE_nil 8 0 (by omega)]

/-- Decoding the encoding of a `HouseState` truncated to its first 12 fields
(112 bytes) succeeds, defaulting every missing trailing field. -/
theorem houseState_read_take112 (s : HouseState) (h : s.WF) :
    HouseState.read ((HouseState.write s).take 112) =
      some ({ s with three_card_progressive_jackpot := THREE_CARD_PROGRESSIVE_BASE_JACKPOT, uth_progressive_jackpot := UTH_PROGRESSIVE_BASE_JACKPOT, staking_reward_per_voting_power_x18 := 0, staking_reward_pool := 0, staking_reward_carry := 0 }, []) := by
  obtain ⟨h1, h2, h3, h4, h5, h6, h7, h8, h9, h10, h11, h12, h13, h14, h15, h16, h17⟩ := h
  rw [HouseState.write]
  simp [take_app]
  rw [HouseState.read]
  rw [readLEBytes_writeLEBytes_of_lt 8 _ _ (u64_lt_pow _ h1)]
  simp only []
  rw [readLEBytes_writeLEBytes_of_lt 8 _ _ (u64_lt_pow _ h2)]
  simp only []
  rw [readI128_writeI128 _ _ h3.1 h3.2]
  simp only []
  rw [readLEBytes_writeLEBytes_of_lt 8 _ _ (u64_lt_pow _ h4)]
  simp only []
  rw [readLEBytes_writeLEBytes_of_lt 16 _ _ (u128_lt_pow _ h5)]
  simp only []
  rw [readLEBytes_writeLEBytes_of_lt 8 _ _ (u64_lt_pow _ h6)]
  simp only []
  rw [readLEBytes_writeLEBytes_of_lt 8 _ _ (u64_lt_pow _ h7)]
  simp only []
  rw [readLEBytes_writeLEBytes_of_lt 8 _ _ (u64_lt_pow _ h8)]
  simp only []
  rw [readOptLE_write 8 _ _ _ (u64_lt_pow _ h9)]
  simp only []
  rw [readOptLE_write 8 _ _ _ (u64_lt_pow _ h10)]
  simp only []
  rw [readOptLE_write 8 _ _ _ (u64_lt_pow _ h11)]
  simp only []
  rw [readOptLE_write_nil 8 _ _ (u64_lt_pow _ h12)]
  simp only []
  rw [readOptLE_nil 8 THREE_CARD_PROGRESSIVE_BASE_JACKPOT (by omega)]
  simp only []
  rw [readOptLE_nil 8 UTH_PROGRESSIVE_BASE_JACKPOT (by omega)]
  simp only []
  rw [readOptLE_nil 16 0 (by omega)]
  simp only []
  rw [readOptLE_nil 8 0 (by omega)]
  simp only []
  rw [readOptLE_nil 8 0 (by omega)]

/-- Decoding the encoding of a `HouseState` truncated to its first 13 fields
(120 bytes) succeeds, defaulting every missing trailing field. -/
theorem houseState_read_take120 (s : HouseState) (h : s.WF) :
    HouseState.read ((HouseState.write s).take 120) =
      some ({ s with uth_progressive_jackpot := UTH_PROGRESSIVE_BASE_JACKPOT, staking_reward_per_voting_power_x18 := 0, staking_reward_pool := 0, staking_reward_carry := 0 }, []) := by
  obtain ⟨h1, h2, h3, h4, h5, h6, h7, h8, h9, h10, h11, h12, h13, h14, h15, h16, h17⟩ := h
  rw [HouseState.write]
  simp [take_app]
  rw [HouseState.read]
  rw [readLEBytes_writeLEBytes_of_lt 8 _ _ (u64_lt_pow _ h1)]
  simp only []
  rw [readLEBytes_writeLEBytes_of_lt 8 _ _ (u64_lt_pow _ h2)]
  simp only []
  rw [readI128_writeI128 _ _ h3.1 h3.2]
  simp only []
  rw [readLEBytes_writeLEBytes_of_lt 8 _ _ (u64_lt_pow _ h4)]
  simp only []
  rw [readLEBytes_writeLEBytes_of_lt 16 _ _ (u128_lt_pow _ h5)]
  simp only []
  rw [readLEBytes_writeLEBytes_of_lt 8 _ _ (u64_lt_pow _ h6)]
  simp only []
  rw [readLEBytes_writeLEBytes_of_lt 8 _ _ (u64_lt_pow _ h7)]
  simp only []
  rw [readLEBytes_writeLEBytes_of_lt 8 _ _ (u64_lt_pow _ h8)]
  simp only []
  rw [readOptLE_write 8 _ _ _ (u64_lt_pow _ h9)]
  simp only []
  rw [readOptLE_write 8 _ _ _ (u64_lt_pow _ h10)]
  simp only []
  rw [readOptLE_write 8 _ _ _ (u64_lt_pow _ h11)]
  simp only []
  rw [readOptLE_write 8 _ _ _ (u64_lt_pow _ h12)]
  simp only []
  rw [readOptLE_write_nil 8 _ _ (u64_lt_pow _ h13)]
  simp only []
  rw [readOptLE_nil 8 UTH_PROGRESSIVE_BASE_JACKPOT (by omega)]
  simp only []
  rw [readOptLE_nil 16 0 (by omega)]
  simp only []
  rw [readOptLE_nil 8 0 (by omega)]
  simp only []
  rw [readOptLE_nil 8 0 (by omega)]

/-- Decoding the encoding of a `HouseState` truncated to its first 14 fields
(128 bytes) succeeds, defaulting every missing trailing field. -/
theorem houseState_read_take128 (s : HouseState) (h : s.WF) :
    HouseState.read ((HouseState.write s).take 128) =
      some ({ s with staking_reward_per_voting_power_x18 := 0, staking_reward_pool := 0, staking_reward_carry := 0 }, []) := by
  obtain ⟨h1, h2, h3, h4, h5, h6, h7, h8, h9, h10, h11, h12, h13, h14, h15, h16, h17⟩ := h
  rw [HouseState.write]
  simp [take_app]
  rw [HouseState.read]
  rw [readLEBytes_writeLEBytes_of_lt 8 _ _ (u64_lt_pow _ h1)]
  simp only []
  rw [readLEBytes_writeLEBytes_of_lt 8 _ _ (u64_lt_pow _ h2)]
  simp only []
  rw [readI128_writeI128 _ _ h3.1 h3.2]
  simp only []
  rw [readLEBytes_writeLEBytes_of_lt 8 _ _ (u64_lt_pow _ h4)]
  simp only []
  rw [readLEBytes_writeLEBytes_of_lt 16 _ _ (u128_lt_pow _ h5)]
  simp only []
  rw [readLEBytes_writeLEBytes_of_lt 8 _ _ (u64_lt_pow _ h6)]
  simp only []
  rw [readLEBytes_writeLEBytes_of_lt 8 _ _ (u64_lt_pow _ h7)]
  simp only []
  rw [readLEBytes_writeLEBytes_of_lt 8 _ _ (u64_lt_pow _ h8)]
  simp only []
  rw [readOptLE_write 8 _ _ _ (u64_lt_pow _ h9)]
  simp only []
  rw [readOptLE_write 8 _ _ _ (u64_lt_pow _ h10)]
  simp only []
  rw [readOptLE_write 8 _ _ _ (u64_lt_pow _ h11)]
  simp only []
  rw [readOptLE_write 8 _ _ _ (u64_lt_pow _ h12)]
  simp only []
  rw [readOptLE_write 8 _ _ _ (u64_lt_pow _ h13)]
  simp only []
  rw [readOptLE_write_nil 8 _ _ (u64_lt_pow _ h14)]
  simp only []
  rw [readOptLE_nil 16 0 (by omega)]
  simp only []
  rw [readOptLE_nil 8 0 (by omega)]
  simp only []
  rw [readOptLE_nil 8 0 (by omega)]

/-- Decoding the encoding of a `HouseState` truncated to its first 15 fields
(144 bytes) succeeds, defaulting every missing trailing field. -/
theorem houseState_read_take144 (s : HouseState) (h : s.WF) :
    HouseState.read ((HouseState.write s).take 144) =
      some ({ s with staking_reward_pool := 0, staking_reward_carry := 0 }, []) := by
  obtain ⟨h1, h2, h3, h4, h5, h6, h7, h8, h9, h10, h11, h12, h13, h14, h15, h16, h17⟩ := h
  rw [HouseState.write]
  simp [take_app]
  rw [HouseState.read]
  rw [readLEBytes_writeLEBytes_of_lt 8 _ _ (u64_lt_pow _ h1)]
  simp only []
  rw [readLEBytes_writeLEBytes_of_lt 8 _ _ (u64_lt_pow _ h2)]
  simp only []
  rw [readI128_writeI128 _ _ h3.1 h3.2]
  simp only []
  rw [readLEBytes_writeLEBytes_of_lt 8 _ _ (u64_lt_pow _ h4)]
  simp only []
  rw [readLEBytes_writeLEBytes_of_lt 16 _ _ (u128_lt_pow _ h5)]
  simp only []
  rw [readLEBytes_writeLEBytes_of_lt 8 _ _ (u64_lt_pow _ h6)]
  simp only []
  rw [readLEBytes_writeLEBytes_of_lt 8 _ _ (u64_lt_pow _ h7)]
  simp only []
  rw [readLEBytes_writeLEBytes_of_lt 8 _ _ (u64_lt_pow _ h8)]
  simp only []
  rw [readOptLE_write 8 _ _ _ (u64_lt_pow _ h9)]
  simp only []
  rw [readOptLE_write 8 _ _ _ (u64_lt_pow _ h10)]
  simp only []
  rw [readOptLE_write 8 _ _ _ (u64_lt_pow _ h11)]
  simp only []
  rw [readOptLE_write 8 _ _ _ (u64_lt_pow _ h12)]
  simp only []
  rw [readOptLE_write 8 _ _ _ (u64_lt_pow _ h13)]
  simp only []
  rw [readOptLE_write 8 _ _ _ (u64_lt_pow _ h14)]
  simp only []
  rw [readOptLE_write_nil 16 _ _ (u128_lt_pow _ h15)]
  simp only []
  rw [readOptLE_nil 8 0 (by omega)]
  simp only []
  rw [readOptLE_nil 8 0 (by omega)]

/-- Decoding the encoding of a `HouseState` truncated to its first 16 fields
(152 bytes) succeeds, defaulting every missing trailing field. -/
theorem houseState_read_take152 (s : HouseState) (h : s.WF) :
    HouseState.read ((HouseState.write s).take 152) =
      some ({ s with staking_reward_carry := 0 }, []) := by
  obtain ⟨h1, h2, h3, h4, h5, h6, h7, h8, h9, h10, h11, h12, h13, h14, h15, h16, h17⟩ := h
  rw [HouseState.write]
  simp [take_app]
  rw [HouseState.read]
  rw [readLEBytes_writeLEBytes_of_lt 8 _ _ (u64_lt_pow _ h1)]
  simp only []
  rw [readLEBytes_writeLEBytes_of_lt 8 _ _ (u64_lt_pow _ h2)]
  simp only []
  rw [readI128_writeI128 _ _ h3.1 h3.2]
  simp only []
  rw [readLEBytes_writeLEBytes_of_lt 8 _ _ (u64_lt_pow _ h4)]
  simp only []
  rw [readLEBytes_writeLEBytes_of_lt 16 _ _ (u128_lt_pow _ h5)]
  simp only []
  rw [readLEBytes_writeLEBytes_of_lt 8 _ _ (u64_lt_pow _ h6)]
  simp only []
  rw [readLEBytes_writeLEBytes_of_lt 8 _ _ (u64_lt_pow _ h7)]
  simp only []
  rw [readLEBytes_writeLEBytes_of_lt 8 _ _ (u64_lt_pow _ h8)]
  simp only []
  rw [readOptLE_write 8 _ _ _ (u64_lt_pow _ h9)]
  simp only []
  rw [readOptLE_write 8 _ _ _ (u64_lt_pow _ h10)]
  simp only []
  rw [readOptLE_write 8 _ _ _ (u64_lt_pow _ h11)]
  simp only []
  rw [readOptLE_write 8 _ _ _ (u64_lt_pow _ h12)]
  simp only []
  rw [readOptLE_write 8 _ _ _ (u64_lt_pow _ h13)]
  simp only []
  rw [readOptLE_write 8 _ _ _ (u64_lt_pow _ h14)]
  simp only []
  rw [readOptLE_write 16 _ _ _ (u128_lt_pow _ h15)]
  simp only []
  rw [readOptLE_write_nil 8 _ _ (u64_lt_pow _ h16)]
  simp only []
  rw [readOptLE_nil 8 0 (by omega)]

/-- Decoding the encoding of a `Staker` truncated to its first 4 fields
(40 bytes) succeeds, defaulting every missing trailing field. -/
theorem staker_read_take40 (s : Staker) (h : s.WF) :
    Staker.read ((Staker.write s).take 40) =
      some ({ s with reward_debt_x18 := 0, unclaimed_rewards := 0 }, []) := by
  obtain ⟨h1, h2, h3, h4, h5, h6⟩ := h
  rw [Staker.write]
  simp [take_app]
  rw [Staker.read]
  rw [readLEBytes_writeLEBytes_of_lt 8 _ _ (u64_lt_pow _ h1)]
  simp only []
  rw [readLEBytes_writeLEBytes_of_lt 8 _ _ (u64_lt_pow _ h2)]
  simp only []
  rw [readLEBytes_writeLEBytes_of_lt 8 _ _ (u64_lt_pow _ h3)]
  simp only []
  rw [readLEBytes_writeLEBytes_nil 16 _ (u128_lt_pow _ h4)]
  simp only []
  rw [readOptLE_nil 16 0 (by omega)]
  simp only []
  rw [readOptLE_nil 8 0 (by omega)]

/-- Decoding the encoding of a `Staker` truncated to its first 5 fields
(56 bytes) succeeds, defaulting every missing trailing field. -/
theorem staker_read_take56 (s : Staker) (h : s.WF) :
    Staker.read ((Staker.write s).take 56) =
      some ({ s with unclaimed_rewards := 0 }, []) := by
  obtain ⟨h1, h2, h3, h4, h5, h6⟩ := h
  rw [Staker.write]
  simp [take_app]
  rw [Staker.read]
  rw [readLEBytes_writeLEBytes_of_lt 8 _ _ (u64_lt_pow _ h1)]
  simp only []
  rw [readLEBytes_writeLEBytes_of_lt 8 _ _ (u64_lt_pow _ h2)]
  simp only []
  rw [readLEBytes_writeLEBytes_of_lt 8 _ _ (u64_lt_pow _ h3)]
  simp only []
  rw [readLEBytes_writeLEBytes_of_lt 16 _ _ (u128_lt_pow _ h4)]
  simp only []
  rw [readOptLE_write_nil 16 _ _ (u128_lt_pow _ h5)]
  simp only []
  rw [readOptLE_nil 8 0 (by omega)]

/-- Decoding the encoding of a `Vault` truncated to its first 2 fields
(16 bytes) succeeds, defaulting every missing trailing field. -/
theorem vault_read_take16 (s : Vault) (h : s.WF) :
    Vault.read ((Vault.write s).take 16) =
      some ({ s with last_accrual_ts := 0 }, []) := by
  obtain ⟨h1, h2, h3⟩ := h
  rw [Vault.write]
  simp [take_app]
  rw [Vault.read]
  rw [readLEBytes_writeLEBytes_of_lt 8 _ _ (u64_lt_pow _ h1)]
  simp only []
  rw [readLEBytes_writeLEBytes_nil 8 _ (u64_lt_pow _ h2)]
  simp only []
  rw [readOptLE_nil 8 0 (by omega)]

/-- Decoding the encoding of a `SavingsPool` truncated to its first 1 fields
(8 bytes) succeeds, defaulting every missing trailing field. -/
theorem savingsPool_read_take8 (s : SavingsPool) (h : s.WF) :
    SavingsPool.read ((SavingsPool.write s).take 8) =
      some ({ s with reward_per_share_x18 := 0, pending_rewards := 0, total_rewards_accrued := 0, total_rewards_paid := 0 }, []) := by
  obtain ⟨h1, h2, h3, h4, h5⟩ := h
  rw [SavingsPool.write]
  simp [take_app]
  rw [SavingsPool.read]
  rw [readLEBytes_writeLEBytes_nil 8 _ (u64_lt_pow _ h1)]
  simp only []
  rw [readOptLE_nil 16 0 (by omega)]
  simp only []
  rw [readOptLE_nil 8 0 (by omega)]
  simp only []
  rw [readOptLE_nil 8 0 (by omega)]
  simp only []
  rw [readOptLE_nil 8 0 (by omega)]

/-- Decoding the encoding of a `SavingsPool` truncated to its first 2 fields
(24 bytes) succeeds, defaulting every missing trailing field. -/
theorem savingsPool_read_take24 (s : SavingsPool) (h : s.WF) :
    SavingsPool.read ((SavingsPool.write s).take 24) =
      some ({ s with pending_rewards := 0, total_rewards_accrued := 0, total_rewards_paid := 0 }, []) := by
  obtain ⟨h1, h2, h3, h4, h5⟩ := h
  rw [SavingsPool.write]
  simp [take_app]
  rw [SavingsPool.read]
  rw [readLEBytes_writeLEBytes_of_lt 8 _ _ (u64_lt_pow _ h1)]
  simp only []
  rw [readOptLE_write_nil 16 _ _ (u128_lt_pow _ h2)]
  simp only []
  rw [readOptLE_nil 8 0 (by omega)]
  simp only []
  rw [readOptLE_nil 8 0 (by omega)]
  simp only []
  rw [readOptLE_nil 8 0 (by omega)]

/-- Decoding the encoding of a `SavingsPool` truncated to its first 3 fields
(32 bytes) succeeds, defaulting every missing trailing field. -/
theorem savingsPool_read_take32 (s : SavingsPool) (h : s.WF) :
    SavingsPool.read ((SavingsPool.write s).take 32) =
      some ({ s with total_rewards_accrued := 0, total_rewards_paid := 0 }, []) := by
  obtain ⟨h1, h2, h3, h4, h5⟩ := h
  rw [SavingsPool.write]
  simp [take_app]
  rw [SavingsPool.read]
  rw [readLEBytes_writeLEBytes_of_lt 8 _ _ (u64_lt_pow _ h1)]
  simp only []
  rw [readOptLE_write 16 _ _ _ (u128_lt_pow _ h2)]
  simp only []
  rw [readOptLE_write_nil 8 _ _ (u64_lt_pow _ h3)]
  simp only []
  rw [readOptLE_nil 8 0 (by omega)]
  simp only []
  rw [readOptLE_nil 8 0 (by omega)]

/-- Decoding the encoding of a `SavingsPool` truncated to its first 4 fields
(40 bytes) succeeds, defaulting every missing trailing field. -/
theorem savingsPool_read_take40 (s : SavingsPool) (h : s.WF) :
    SavingsPool.read ((SavingsPool.write s).take 40) =
      some ({ s with total_rewards_paid := 0 }, []) := by
  obtain ⟨h1, h2, h3, h4, h5⟩ := h
  rw [SavingsPool.write]
  simp [take_app]
  rw [SavingsPool.read]
  rw [readLEBytes_writeLEBytes_of_lt 8 _ _ (u64_lt_pow _ h1)]
  simp only []
  rw [readOptLE_write 16 _ _ _ (u128_lt_pow _ h2)]
  simp only []
  rw [readOptLE_write 8 _ _ _ (u64_lt_pow _ h3)]
  simp only []
  rw [readOptLE_write_nil 8 _ _ (u64_lt_pow _ h4)]
  simp only []
  rw [readOptLE_nil 8 0 (by omega)]

/-- Decoding the encoding of a `SavingsBalance` truncated to its first 1 fields
(8 bytes) succeeds, defaulting every missing trailing field. -/
theorem savingsBalance_read_take8 (s : SavingsBalance) (h : s.WF) :
    SavingsBalance.read ((SavingsBalance.write s).take 8) =
      some ({ s with reward_debt_x18 := 0, unclaimed_rewards := 0 }, []) := by
  obtain ⟨h1, h2, h3⟩ := h
  rw [SavingsBalance.write]
  simp [take_app]
  rw [SavingsBalance.read]
  rw [readLEBytes_writeLEBytes_nil 8 _ (u64_lt_pow _ h1)]
  simp only []
  rw [readOptLE_nil 16 0 (by omega)]
  simp only []
  rw [readOptLE_nil 8 0 (by omega)]

/-- Decoding the encoding of a `SavingsBalance` truncated to its first 2 fields
(24 bytes) succeeds, defaulting every missing trailing field. -/
theorem savingsBalance_read_take24 (s : SavingsBalance) (h : s.WF) :
    SavingsBalance.read ((SavingsBalance.write s).take 24) =
      some ({ s with unclaimed_rewards := 0 }, []) := by
  obtain ⟨h1, h2, h3⟩ := h
  rw [SavingsBalance.write]
  simp [take_app]
  rw [SavingsBalance.read]
  rw [readLEBytes_writeLEBytes_of_lt 8 _ _ (u64_lt_pow _ h1)]
  simp only []
  rw [readOptLE_write_nil 16 _ _ (u128_lt_pow _ h2)]
  simp only []
  rw [readOptLE_nil 8 0 (by omega)]

/-- Decoding the encoding of a `AmmPool` truncated to its first 5 fields
(28 bytes) succeeds, defaulting every missing trailing field. -/
theorem ammPool_read_take28 (s : AmmPool) (h : s.WF) :
    AmmPool.read ((AmmPool.write s).take 28) =
      some ({ s with bootstrap_price_vusdt_numerator := AMM_BOOTSTRAP_PRICE_VUSDT_NUMERATOR, bootstrap_price_rng_denominator := AMM_BOOTSTRAP_PRICE_RNG_DENOMINATOR }, []) := by
  obtain ⟨h1, h2, h3, h4, h5, h6, h7⟩ := h
  rw [AmmPool.write]
  simp [take_app]
  rw [AmmPool.read]
  rw [readLEBytes_writeLEBytes_of_lt 8 _ _ (u64_lt_pow _ h1)]
  simp only []
  rw [readLEBytes_writeLEBytes_of_lt 8 _ _ (u64_lt_pow _ h2)]
  simp only []
  rw [readLEBytes_writeLEBytes_of_lt 8 _ _ (u64_lt_pow _ h3)]
  simp only []
  rw [readLEBytes_writeLEBytes_of_lt 2 _ _ (u16_lt_pow _ h4)]
  simp only []
  rw [readLEBytes_writeLEBytes_nil 2 _ (u16_lt_pow _ h5)]
  simp only []
  rw [readOptLE_nil 8 AMM_BOOTSTRAP_PRICE_VUSDT_NUMERATOR (by omega)]
  simp only []
  rw [readOptLE_nil 8 AMM_BOOTSTRAP_PRICE_RNG_DENOMINATOR (by omega)]

/-- Decoding the encoding of a `AmmPool` truncated to its first 6 fields
(36 bytes) succeeds, defaulting every missing trailing field. -/
theorem ammPool_read_take36 (s : AmmPool) (h : s.WF) :
    AmmPool.read ((AmmPool.write s).take 36) =
      some ({ s with bootstrap_price_rng_denominator := AMM_BOOTSTRAP_PRICE_RNG_DENOMINATOR }, []) := by
  obtain ⟨h1, h2, h3, h4, h5, h6, h7⟩ := h
  rw [AmmPool.write]
  simp [take_app]
  rw [AmmPool.read]
  rw [readLEBytes_writeLEBytes_of_lt 8 _ _ (u64_lt_pow _ h1)]
  simp only []
  rw [readLEBytes_writeLEBytes_of_lt 8 _ _ (u64_lt_pow _ h2)]
  simp only []
  rw [readLEBytes_writeLEBytes_of_lt 8 _ _ (u64_lt_pow _ h3)]
  simp only []
  rw [readLEBytes_writeLEBytes_of_lt 2 _ _ (u16_lt_pow _ h4)]
  simp only []
  rw [readLEBytes_writeLEBytes_of_lt 2 _ _ (u16_lt_pow _ h5)]
  simp only []
  rw [readOptLE_write_nil 8 _ _ (u64_lt_pow _ h6)]
  simp only []
  rw [readOptLE_nil 8 AMM_BOOTSTRAP_PRICE_RNG_DENOMINATOR (by omega)]

/-! ## Mandatory-prefix strictness -/

theorem readI128_none_of_short (bs : List Nat) (h : bs.length < 16) :
    readI128 bs = none := by
  rw [readI128, readLEBytes_none_of_short 16 bs h]

theorem readI128_some_of_le (bs : List Nat) (h : 16 ≤ bs.length) :
    ∃ v rest, readI128 bs = some (v, rest) ∧ rest.length = bs.length - 16 := by
  obtain ⟨n, rest, hn, hlen⟩ := readLEBytes_some_of_le 16 bs h
  exact ⟨intOfTwos n, rest, by rw [readI128, hn], hlen⟩

/-- A `HouseState` buffer that ends inside the first eight (mandatory) fields
is rejected: no defaulting happens before `total_vusdt_debt`. -/
theorem HouseState.read_none_of_short (bs : List Nat) (h : bs.length < 80) :
    HouseState.read bs = none := by
  rw [HouseState.read]
  rcases Nat.lt_or_ge bs.length 8 with h1 | h1
  · rw [readLEBytes_none_of_short 8 bs h1]
  · obtain ⟨v1, r1, e1, l1⟩ := readLEBytes_some_of_le 8 bs h1
    rw [e1]
    simp only []
    rcases Nat.lt_or_ge r1.length 8 with h2 | h2
    · rw [readLEBytes_none_of_short 8 r1 h2]
    · obtain ⟨v2, r2, e2, l2⟩ := readLEBytes_some_of_le 8 r1 h2
      rw [e2]
      simp only []
      rcases Nat.lt_or_ge r2.length 16 with h3 | h3
      · rw [readI128_none_of_short r2 h3]
      · obtain ⟨v3, r3, e3, l3⟩ := readI128_some_of_le r2 h3
        rw [e3]
        simp only []
        rcases Nat.lt_or_ge r3.length 8 with h4 | h4
        · rw [readLEBytes_none_of_short 8 r3 h4]
        · obtain ⟨v4, r4, e4, l4⟩ := readLEBytes_some_of_le 8 r3 h4
          rw [e4]
          simp only []
          rcases Nat.lt_or_ge r4.length 16 with h5 | h5
          · rw [readLEBytes_none_of_short 16 r4 h5]
          · obtain ⟨v5, r5, e5, l5⟩ := readLEBytes_some_of_le 16 r4 h5
            rw [e5]
            simp only []
            rcases Nat.lt_or_ge r5.length 8 with h6 | h6
            · rw [readLEBytes_none_of_short 8 r5 h6]
            · obtain ⟨v6, r6, e6, l6⟩ := readLEBytes_some_of_le 8 r5 h6
              rw [e6]
              simp only []
              rcases Nat.lt_or_ge r6.length 8 with h7 | h7
              · rw [readLEBytes_none_of_short 8 r6 h7]
              · obtain ⟨v7, r7, e7, l7⟩ := readLEBytes_some_of_le 8 r6 h7
                rw [e7]
                simp only []
                rw [readLEBytes_none_of_short 8 r7 (by omega)]

/-! ## Application mailbox fallbacks — `src/node/src/application/ingress.rs`

Each `Automaton` method races `sender.send(message)` against the engine stop
signal.  The send branch completes with `Err` when the mailbox is closed and
with `Ok` otherwise (assuming mailbox capacity); the stop branch is ready only
once the stop signal has fired.  When both branches are ready the winner is
decided by the scheduler, which we model as an explicit parameter.  A digest
is an opaque 32-byte value, embedded as a natural number. -/

/-- Which branch of the send/stop `select!` resolves first. -/
inductive SelectBranch
  | send
  | stop
deriving Repr, DecidableEq

/-- Outcome of the `select!` between `sender.send(...)` and the stop signal. -/
inductive SendOutcome
  | delivered
  | sendErr
  | stoppedOut
deriving Repr, DecidableEq

/-- Resolve the `select!`: the stop branch can win only once the stop signal
has fired; the send branch yields `Err` exactly when the mailbox is closed. -/
def selectSendStop (closed stopFired : Bool) (winner : SelectBranch) : SendOutcome :=
  if stopFired then
    match winner with
    | SelectBranch.stop => SendOutcome.stoppedOut
    | SelectBranch.send => if closed then SendOutcome.sendErr else SendOutcome.delivered
  else if closed then SendOutcome.sendErr else SendOutcome.delivered

/-- Modelled from the spec: the constant genesis block digest returned by
`genesis_digest()` (defined outside the visible slice); the numeric value is
irrelevant to the theorems, which refer to this constant only by name. -/
def genesisDigest : Nat := 0

/-- `Mailbox::genesis`: on send error or stop, return `genesis_digest()`;
otherwise await the reply, falling back to `genesis_digest()` when the
application drops the reply channel (`appReply = none`). -/
def mailboxGenesis (closed stopFired : Bool) (winner : SelectBranch)
    (appReply : Option Nat) : Nat :=
  match selectSendStop closed stopFired winner with
  | SendOutcome.sendErr => genesisDigest
  | SendOutcome.stoppedOut => genesisDigest
  | SendOutcome.delivered =>
    match appReply with
    | some d => d
    | none => genesisDigest

/-- `Mailbox::propose`: on send error or stop, return a receiver pre-loaded
with the parent digest; otherwise return the reply receiver (`none` models a
dropped reply channel). -/
def mailboxPropose (closed stopFired : Bool) (winner : SelectBranch)
    (parentDigest : Nat) (appReply : Option Nat) : Option Nat :=
  match selectSendStop closed stopFired winner with
  | SendOutcome.sendErr => some parentDigest
  | SendOutcome.stoppedOut => some parentDigest
  | SendOutcome.delivered => appReply

/-- `Mailbox::verify`: on send error or stop, return a receiver pre-loaded
with `false`; otherwise return the reply receiver. -/
def mailboxVerify (closed stopFired : Bool) (winner : SelectBranch)
    (appReply : Option Bool) : Option Bool :=
  match selectSendStop closed stopFired winner with
  | SendOutcome.sendErr => some false
  | SendOutcome.stoppedOut => some false
  | SendOutcome.delivered => appReply

/-! ## Engine supervisor — `src/node/src/engine.rs` -/

/-- A task awaited by the supervisor: an actor task (abortable handle) or the
stop-signal pseudo-task. -/
structure NamedTask where
  name : String
  isActor : Bool
deriving Repr, DecidableEq

/-- The nine tasks the run loop awaits, in source order: the eight actor
tasks then the engine stop signal. -/
def engineTasks : List NamedTask :=
  [⟨"system_metrics", true⟩, ⟨"seeder", true⟩, ⟨"aggregation", true⟩,
   ⟨"aggregator", true⟩, ⟨"buffer", true⟩, ⟨"application", true⟩,
   ⟨"marshal", true⟩, ⟨"consensus", true⟩, ⟨"engine", false⟩]

/-- After `select_all` resolves with the task at `completedIdx`, the run loop
iterates over the remaining tasks and calls `abort` on each. -/
def remainingTasks (tasks : List NamedTask) (completedIdx : Nat) : List NamedTask :=
  tasks.eraseIdx completedIdx

/-- `NamedTask::abort` aborts the runtime handle only for actor tasks (the
stop-signal task has no handle); these are the handles actually aborted. -/
def abortedHandles (tasks : List NamedTask) (completedIdx : Nat) : List NamedTask :=
  (remainingTasks tasks completedIdx).filter (fun t => t.isActor)

/-- `SYNCER_ACTIVITY_TIMEOUT_MULTIPLIER` in `src/node/src/engine.rs`. -/
def SYNCER_ACTIVITY_TIMEOUT_MULTIPLIER : Nat := 10

/-- `u64::MAX`. -/
def u64Max : Nat := 2 ^ 64 - 1

/-- `u64::saturating_mul`. -/
def satMulU64 (a b : Nat) : Nat := min (a * b) u64Max

/-- The `view_retention_timeout` the engine passes to the marshal:
`activity_timeout.saturating_mul(SYNCER_ACTIVITY_TIMEOUT_MULTIPLIER)`. -/
def marshalViewRetentionTimeout (activityTimeout : Nat) : Nat :=
  satMulU64 activityTimeout SYNCER_ACTIVITY_TIMEOUT_MULTIPLIER
/-- All legal trailing truncations of an encoded `HouseState` decode to the
original entity with the missing trailing fields defaulted. -/
def HouseState.TruncSpec (s : HouseState) : Prop :=
    HouseState.read ((HouseState.write s).take 80) =
      some ({ s with total_vusdt_debt := 0, stability_fees_accrued := 0, recovery_pool_vusdt := 0, recovery_pool_retired := 0, three_card_progressive_jackpot := THREE_CARD_PROGRESSIVE_BASE_JACKPOT, uth_progressive_jackpot := UTH_PROGRESSIVE_BASE_JACKPOT, staking_reward_per_voting_power_x18 := 0, staking_reward_pool := 0, staking_reward_carry := 0 }, []) ∧
    HouseState.read ((HouseState.write s).take 88) =
      some ({ s with stability_fees_accrued := 0, recovery_pool_vusdt := 0, recovery_pool_retired := 0, three_card_progressive_jackpot := THREE_CARD_PROGRESSIVE_BASE_JACKPOT, uth_progressive_jackpot := UTH_PROGRESSIVE_BASE_JACKPOT, staking_reward_per_voting_power_x18 := 0, staking_reward_pool := 0, staking_reward_carry := 0 }, []) ∧
    HouseState.read ((HouseState.write s).take 96) =
      some ({ s with recovery_pool_vusdt := 0, recovery_pool_retired := 0, three_card_progressive_jackpot := THREE_CARD_PROGRESSIVE_BASE_JACKPOT, uth_progressive_jackpot := UTH_PROGRESSIVE_BASE_JACKPOT, staking_reward_per_voting_power_x18 := 0, staking_reward_pool := 0, staking_reward_carry := 0 }, []) ∧
    HouseState.read ((HouseState.write s).take 104) =
      some ({ s with recovery_pool_retired := 0, three_card_progressive_jackpot := THREE_CARD_PROGRESSIVE_BASE_JACKPOT, uth_progressive_jackpot := UTH_PROGRESSIVE_BASE_JACKPOT, staking_reward_per_voting_power_x18 := 0, staking_reward_pool := 0, staking_reward_carry := 0 }, []) ∧
    HouseState.read ((HouseState.write s).take 112) =
      some ({ s with three_card_progressive_jackpot := THREE_CARD_PROGRESSIVE_BASE_JACKPOT, uth_progressive_jackpot := UTH_PROGRESSIVE_BASE_JACKPOT, staking_reward_per_voting_power_x18 := 0, staking_reward_pool := 0, staking_reward_carry := 0 }, []) ∧
    HouseState.read ((HouseState.write s).take 120) =
      some ({ s with uth_progressive_jackpot := UTH_PROGRESSIVE_BASE_JACKPOT, staking_reward_per_voting_power_x18 := 0, staking_reward_pool := 0, staking_reward_carry := 0 }, []) ∧
    HouseState.read ((HouseState.write s).take 128) =
      some ({ s with staking_reward_per_voting_power_x18 := 0, staking_reward_pool := 0, staking_reward_carry := 0 }, []) ∧
    HouseState.read ((HouseState.write s).take 144) =
      some ({ s with staking_reward_pool := 0, staking_reward_carry := 0 }, []) ∧
    HouseState.read ((HouseState.write s).take 152) =
      some ({ s with staking_reward_carry := 0 }, [])

theorem houseState_truncSpec_of_wf (s : HouseState) (h : s.WF) : s.TruncSpec :=
  ⟨houseState_read_take80 s h, houseState_read_take88 s h, houseState_read_take96 s h, houseState_read_take104 s h, houseState_read_take112 s h, houseState_read_take120 s h, houseState_read_take128 s h, houseState_read_take144 s h, houseState_read_take152 s h⟩

/-- All legal trailing truncations of an encoded `Staker` decode to the
original entity with the missing trailing fields defaulted. -/
def Staker.TruncSpec (s : Staker) : Prop :=
    Staker.read ((Staker.write s).take 40) =
      some ({ s with reward_debt_x18 := 0, unclaimed_rewards := 0 }, []) ∧
    Staker.read ((Staker.write s).take 56) =
      some ({ s with unclaimed_rewards := 0 }, [])

theorem staker_truncSpec_of_wf (s : Staker) (h : s.WF) : s.TruncSpec :=
  ⟨staker_read_take40 s h, staker_read_take56 s h⟩

/-- All legal trailing truncations of an encoded `Vault` decode to the
original entity with the missing trailing fields defaulted. -/
def Vault.TruncSpec (s : Vault) : Prop :=
    Vault.read ((Vault.write s).take 16) =
      some ({ s with last_accrual_ts := 0 }, [])

theorem vault_truncSpec_of_wf (s : Vault) (h : s.WF) : s.TruncSpec :=
  vault_read_take16 s h

/-- All legal trailing truncations of an encoded `SavingsPool` decode to the
original entity with the missing trailing fields defaulted. -/
def SavingsPool.TruncSpec (s : SavingsPool) : Prop :=
    SavingsPool.read ((SavingsPool.write s).take 8) =
      some ({ s with reward_per_share_x18 := 0, pending_rewards := 0, total_rewards_accrued := 0, total_rewards_paid := 0 }, []) ∧
    SavingsPool.read ((SavingsPool.write s).take 24) =
      some ({ s with pending_rewards := 0, total_rewards_accrued := 0, total_rewards_paid := 0 }, []) ∧
    SavingsPool.read ((SavingsPool.write s).take 32) =
      some ({ s with total_rewards_accrued := 0, total_rewards_paid := 0 }, []) ∧
    SavingsPool.read ((SavingsPool.write s).take 40) =
      some ({ s with total_rewards_paid := 0 }, [])

theorem savingsPool_truncSpec_of_wf (s : SavingsPool) (h : s.WF) : s.TruncSpec :=
  ⟨savingsPool_read_take8 s h, savingsPool_read_take24 s h, savingsPool_read_take32 s h, savingsPool_read_take40 s h⟩

/-- All legal trailing truncations of an encoded `SavingsBalance` decode to the
original entity with the missing trailing fields defaulted. -/
def SavingsBalance.TruncSpec (s : SavingsBalance) : Prop :=
    SavingsBalance.read ((SavingsBalance.write s).take 8) =
      some ({ s with reward_debt_x18 := 0, unclaimed_rewards := 0 }, []) ∧
    SavingsBalance.read ((SavingsBalance.write s).take 24) =
      some ({ s with unclaimed_rewards := 0 }, [])

theorem savingsBalance_truncSpec_of_wf (s : SavingsBalance) (h : s.WF) : s.TruncSpec :=
  ⟨savingsBalance_read_take8 s h, savingsBalance_read_take24 s h⟩

/-- All legal trailing truncations of an encoded `AmmPool` decode to the
original entity with the missing trailing fields defaulted. -/
def AmmPool.TruncSpec (s : AmmPool) : Prop :=
    AmmPool.read ((AmmPool.write s).take 28) =
      some ({ s with bootstrap_price_vusdt_numerator := AMM_BOOTSTRAP_PRICE_VUSDT_NUMERATOR, bootstrap_price_rng_denominator := AMM_BOOTSTRAP_PRICE_RNG_DENOMINATOR }, []) ∧
    AmmPool.read ((AmmPool.write s).take 36) =
      some ({ s with bootstrap_price_rng_denominator := AMM_BOOTSTRAP_PRICE_RNG_DENOMINATOR }, [])

theorem ammPool_truncSpec_of_wf (s : AmmPool) (h : s.WF) : s.TruncSpec :=
  ⟨ammPool_read_take28 s h, ammPool_read_take36 s h⟩
/-! ## Example entity values (used by the witnesses) -/

def houseEx : HouseState := ⟨1, 2, -3, 4, 5, 6, 7, 8, 9, 10, 11, 12, 13, 14, 15, 16, 17⟩
def stakerEx : Staker := ⟨1, 2, 3, 4, 5, 6⟩
def vaultEx : Vault := ⟨1, 2, 3⟩
def savingsPoolEx : SavingsPool := ⟨1, 2, 3, 4, 5⟩
def savingsBalanceEx : SavingsBalance := ⟨1, 2, 3⟩
def vaultRegistryEx : VaultRegistry := ⟨[1, 2]⟩
def ammPoolEx : AmmPool := ⟨1, 2, 3, 4, 5, 6, 7⟩
def policyStateEx : PolicyState :=
  ⟨1, 2, 3, 4, 5, 6, 7, 8, 9, 10, 11, 12, 13, 14, 15, 16, 17, 18, 19, 20, 21⟩
def treasuryStateEx : TreasuryState := ⟨1, 2, 3, 4, 5, 6⟩

/-- With at least the 80 mandatory bytes present, a `HouseState` decode always
succeeds (missing trailing bytes only trigger defaulting). -/
theorem HouseState.read_isSome_of_ge (bs : List Nat) (h : 80 ≤ bs.length) :
    (HouseState.read bs).isSome = true := by
  rw [HouseState.read]
  obtain ⟨v1, r1, e1, l1⟩ := readLEBytes_some_of_le 8 bs (by omega)
  rw [e1]
  simp only []
  obtain ⟨v2, r2, e2, l2⟩ := readLEBytes_some_of_le 8 r1 (by omega)
  rw [e2]
  simp only []
  obtain ⟨v3, r3, e3, l3⟩ := readI128_some_of_le r2 (by omega)
  rw [e3]
  simp only []
  obtain ⟨v4, r4, e4, l4⟩ := readLEBytes_some_of_le 8 r3 (by omega)
  rw [e4]
  simp only []
  obtain ⟨v5, r5, e5, l5⟩ := readLEBytes_some_of_le 16 r4 (by omega)
  rw [e5]
  simp only []
  obtain ⟨v6, r6, e6, l6⟩ := readLEBytes_some_of_le 8 r5 (by omega)
  rw [e6]
  simp only []
  obtain ⟨v7, r7, e7, l7⟩ := readLEBytes_some_of_le 8 r6 (by omega)
  rw [e7]
  simp only []
  obtain ⟨v8, r8, e8, l8⟩ := readLEBytes_some_of_le 8 r7 (by omega)
  rw [e8]
  rfl

/-! ## Claims -/

/-- C1 counterexample: the claim says every missing trailing field other than
the base jackpots defaults to zero, but `AmmPool::read_cfg` defaults its two
missing bootstrap-price fields to the configured
`AMM_BOOTSTRAP_PRICE_VUSDT_NUMERATOR` / `AMM_BOOTSTRAP_PRICE_RNG_DENOMINATOR`
constants: decoding a concrete `AmmPool` encoding truncated after its five
mandatory fields (28 bytes) yields the bootstrap constants, not the
zero-defaulted record the claim predicts. -/
theorem C1_truncation_zero_default_counterexample :
    AmmPool.read ((AmmPool.write ammPoolEx).take 28) =
      some ({ ammPoolEx with
                bootstrap_price_vusdt_numerator :=
                  AMM_BOOTSTRAP_PRICE_VUSDT_NUMERATOR,
                bootstrap_price_rng_denominator :=
                  AMM_BOOTSTRAP_PRICE_RNG_DENOMINATOR }, []) ∧
    AmmPool.read ((AmmPool.write ammPoolEx).take 28) ≠
      some ({ ammPoolEx with
                bootstrap_price_vusdt_numerator := 0,
                bootstrap_price_rng_denominator := 0 }, []) := by
  refine ⟨by decide, by decide⟩

/-- C1 (amended): For every economic state entity (HouseState, Staker, Vault,
SavingsPool, SavingsBalance, VaultRegistry, AmmPool, PolicyState,
TreasuryState) and every well-formed value `x`, decoding any prefix of
`encode(x)` that is truncated only in trailing appended fields succeeds, with
each missing trailing field taking its documented default: the two
progressive jackpots default to their configured base jackpots, the two
AmmPool bootstrap-price fields default to the configured bootstrap-price
constants, and every other missing trailing field defaults to zero.
VaultRegistry, PolicyState and TreasuryState have no appended trailing
fields, so for them the only such prefix is the full encoding, which decodes
successfully. -/
theorem C1_truncation_defaults :
    (∀ s : HouseState, s.WF → s.TruncSpec) ∧
    (∀ s : Staker, s.WF → s.TruncSpec) ∧
    (∀ s : Vault, s.WF → s.TruncSpec) ∧
    (∀ s : SavingsPool, s.WF → s.TruncSpec) ∧
    (∀ s : SavingsBalance, s.WF → s.TruncSpec) ∧
    (∀ s : AmmPool, s.WF → s.TruncSpec) ∧
    (∀ s : VaultRegistry, s.WF →
      VaultRegistry.read (VaultRegistry.write s) = some (s, [])) ∧
    (∀ s : PolicyState, s.WF →
      PolicyState.read (PolicyState.write s) = some (s, [])) ∧
    (∀ s : TreasuryState, s.WF →
      TreasuryState.read (TreasuryState.write s) = some (s, [])) :=
  ⟨houseState_truncSpec_of_wf, staker_truncSpec_of_wf, vault_truncSpec_of_wf,
   savingsPool_truncSpec_of_wf, savingsBalance_truncSpec_of_wf,
   ammPool_truncSpec_of_wf, vaultRegistry_read_write, policyState_read_write,
   treasuryState_read_write⟩

theorem C1_truncation_defaults_witness :
    (houseEx.WF ∧ houseEx.TruncSpec) ∧
    (stakerEx.WF ∧ stakerEx.TruncSpec) ∧
    (vaultEx.WF ∧ vaultEx.TruncSpec) ∧
    (savingsPoolEx.WF ∧ savingsPoolEx.TruncSpec) ∧
    (savingsBalanceEx.WF ∧ savingsBalanceEx.TruncSpec) ∧
    (ammPoolEx.WF ∧ ammPoolEx.TruncSpec) ∧
    (vaultRegistryEx.WF ∧
      VaultRegistry.read (VaultRegistry.write vaultRegistryEx) =
        some (vaultRegistryEx, [])) ∧
    (policyStateEx.WF ∧
      PolicyState.read (PolicyState.write policyStateEx) =
        some (policyStateEx, [])) ∧
    (treasuryStateEx.WF ∧
      TreasuryState.read (TreasuryState.write treasuryStateEx) =
        some (treasuryStateEx, [])) :=
  ⟨⟨by decide, C1_truncation_defaults.1 houseEx (by decide)⟩,
   ⟨by decide, C1_truncation_defaults.2.1 stakerEx (by decide)⟩,
   ⟨by decide, C1_truncation_defaults.2.2.1 vaultEx (by decide)⟩,
   ⟨by decide, C1_truncation_defaults.2.2.2.1 savingsPoolEx (by decide)⟩,
   ⟨by decide, C1_truncation_defaults.2.2.2.2.1 savingsBalanceEx (by decide)⟩,
   ⟨by decide, C1_truncation_defaults.2.2.2.2.2.1 ammPoolEx (by decide)⟩,
   ⟨by decide, C1_truncation_defaults.2.2.2.2.2.2.1 vaultRegistryEx (by decide)⟩,
   ⟨by decide, C1_truncation_defaults.2.2.2.2.2.2.2.1 policyStateEx (by decide)⟩,
   ⟨by decide, C1_truncation_defaults.2.2.2.2.2.2.2.2 treasuryStateEx (by decide)⟩⟩

/-- C2: For every well-formed value `x` of each of the types HouseState,
Staker, Vault, SavingsPool, SavingsBalance, VaultRegistry, AmmPool,
PolicyState, TreasuryState, decoding the full encoding of `x` yields exactly
`x` with no bytes left over: `decode(encode(x)) == x`.  (For VaultRegistry,
well-formedness is the entity's documented invariant: a sorted, deduplicated
list of at most 100000 keys.) -/
theorem C2_decode_encode_roundtrip :
    (∀ s : HouseState, s.WF →
      HouseState.read (HouseState.write s) = some (s, [])) ∧
    (∀ s : Staker, s.WF → Staker.read (Staker.write s) = some (s, [])) ∧
    (∀ s : Vault, s.WF → Vault.read (Vault.write s) = some (s, [])) ∧
    (∀ s : SavingsPool, s.WF →
      SavingsPool.read (SavingsPool.write s) = some (s, [])) ∧
    (∀ s : SavingsBalance, s.WF →
      SavingsBalance.read (SavingsBalance.write s) = some (s, [])) ∧
    (∀ s : VaultRegistry, s.WF →
      VaultRegistry.read (VaultRegistry.write s) = some (s, [])) ∧
    (∀ s : AmmPool, s.WF → AmmPool.read (AmmPool.write s) = some (s, [])) ∧
    (∀ s : PolicyState, s.WF →
      PolicyState.read (PolicyState.write s) = some (s, [])) ∧
    (∀ s : TreasuryState, s.WF →
      TreasuryState.read (TreasuryState.write s) = some (s, [])) :=
  ⟨houseState_read_write, staker_read_write, vault_read_write,
   savingsPool_read_write, savingsBalance_read_write, vaultRegistry_read_write,
   ammPool_read_write, policyState_read_write, treasuryState_read_write⟩

theorem C2_decode_encode_roundtrip_witness :
    (houseEx.WF ∧ HouseState.read (HouseState.write houseEx) = some (houseEx, [])) ∧
    (stakerEx.WF ∧ Staker.read (Staker.write stakerEx) = some (stakerEx, [])) ∧
    (vaultEx.WF ∧ Vault.read (Vault.write vaultEx) = some (vaultEx, [])) ∧
    (savingsPoolEx.WF ∧
      SavingsPool.read (SavingsPool.write savingsPoolEx) = some (savingsPoolEx, [])) ∧
    (savingsBalanceEx.WF ∧
      SavingsBalance.read (SavingsBalance.write savingsBalanceEx) =
        some (savingsBalanceEx, [])) ∧
    (vaultRegistryEx.WF ∧
      VaultRegistry.read (VaultRegistry.write vaultRegistryEx) =
        some (vaultRegistryEx, [])) ∧
    (ammPoolEx.WF ∧ AmmPool.read (AmmPool.write ammPoolEx) = some (ammPoolEx, [])) ∧
    (policyStateEx.WF ∧
      PolicyState.read (PolicyState.write policyStateEx) = some (policyStateEx, [])) ∧
    (treasuryStateEx.WF ∧
      TreasuryState.read (TreasuryState.write treasuryStateEx) =
        some (treasuryStateEx, [])) :=
  ⟨⟨by decide, C2_decode_encode_roundtrip.1 houseEx (by decide)⟩,
   ⟨by decide, C2_decode_encode_roundtrip.2.1 stakerEx (by decide)⟩,
   ⟨by decide, C2_decode_encode_roundtrip.2.2.1 vaultEx (by decide)⟩,
   ⟨by decide, C2_decode_encode_roundtrip.2.2.2.1 savingsPoolEx (by decide)⟩,
   ⟨by decide, C2_decode_encode_roundtrip.2.2.2.2.1 savingsBalanceEx (by decide)⟩,
   ⟨by decide, C2_decode_encode_roundtrip.2.2.2.2.2.1 vaultRegistryEx (by decide)⟩,
   ⟨by decide, C2_decode_encode_roundtrip.2.2.2.2.2.2.1 ammPoolEx (by decide)⟩,
   ⟨by decide, C2_decode_encode_roundtrip.2.2.2.2.2.2.2.1 policyStateEx (by decide)⟩,
   ⟨by decide, C2_decode_encode_roundtrip.2.2.2.2.2.2.2.2 treasuryStateEx (by decide)⟩⟩

/-- C3: For every well-formed HouseState value, decoding its encoding
truncated immediately after the `uth_progressive_jackpot` field (128 bytes)
succeeds and yields a HouseState whose `staking_reward_per_voting_power_x18`,
`staking_reward_pool` and `staking_reward_carry` fields are all 0, with all
earlier fields equal to the original. -/
theorem C3_house_truncated_after_uth (s : HouseState) (h : s.WF) :
    HouseState.read ((HouseState.write s).take 128) =
      some ({ s with staking_reward_per_voting_power_x18 := 0,
                     staking_reward_pool := 0,
                     staking_reward_carry := 0 }, []) :=
  houseState_read_take128 s h

theorem C3_house_truncated_after_uth_witness :
    houseEx.WF ∧
    HouseState.read ((HouseState.write houseEx).take 128) =
      some ({ houseEx with staking_reward_per_voting_power_x18 := 0,
                           staking_reward_pool := 0,
                           staking_reward_carry := 0 }, []) :=
  ⟨by decide, C3_house_truncated_after_uth houseEx (by decide)⟩

/-- C4: Every byte input from which VaultRegistry deserialization succeeds
yields a vault list sorted ascending, with no duplicate keys and at most
100000 entries; and any input whose length prefix encodes more than 100000
entries is rejected. -/
theorem C4_registry_deserialization_invariant :
    (∀ (bs : List Nat) (reg : VaultRegistry) (rest : List Nat),
      VaultRegistry.read bs = some (reg, rest) →
      reg.vaults.Sorted (· ≤ ·) ∧ reg.vaults.Nodup ∧
        reg.vaults.length ≤ 100000) ∧
    (∀ (bs : List Nat) (n : Nat) (rest : List Nat),
      readVarint bs = some (n, rest) → 100000 < n →
      VaultRegistry.read bs = none) :=
  ⟨VaultRegistry.read_invariant, VaultRegistry.read_reject_overflow⟩

theorem C4_registry_deserialization_invariant_witness :
    (VaultRegistry.read [0] = some (⟨[]⟩, []) ∧
      (([] : List Nat).Sorted (· ≤ ·) ∧ ([] : List Nat).Nodup ∧
        ([] : List Nat).length ≤ 100000)) ∧
    (readVarint [161, 141, 6] = some (100001, []) ∧ 100000 < 100001 ∧
      VaultRegistry.read [161, 141, 6] = none) :=
  ⟨⟨by decide, C4_registry_deserialization_invariant.1 [0] ⟨[]⟩ [] (by decide)⟩,
   ⟨by decide, by decide,
    C4_registry_deserialization_invariant.2 [161, 141, 6] 100001 []
      (by decide) (by decide)⟩⟩

/-- C5 counterexample: with the mailbox open, the stop signal fired, the send
branch winning the race and the application answering `true`, the receiver
returned by `verify` yields `true`, not `false` — refuting the claim that a
fired stop signal alone forces a `false` verdict. -/
theorem C5_verify_counterexample :
    mailboxVerify false true SelectBranch.send (some true) = some true ∧
    (some true : Option Bool) ≠ some false :=
  ⟨rfl, by decide⟩

/-- C5 (amended): the receiver returned by `verify` yields `false` whenever
the application mailbox is closed (the send branch errors), and whenever the
stop signal has fired and the stop branch of the select is taken.  (If the
mailbox is open and the send branch wins despite a fired stop signal, the
message is delivered and the receiver carries the application's reply.) -/
theorem C5_verify_fallback_false :
    (∀ (stopFired : Bool) (w : SelectBranch) (r : Option Bool),
        mailboxVerify true stopFired w r = some false) ∧
    (∀ (closed : Bool) (r : Option Bool),
        mailboxVerify closed true SelectBranch.stop r = some false) := by
  constructor
  · intro sf w r
    cases sf <;> cases w <;> rfl
  · intro c r
    cases c <;> rfl

/-- C6 counterexample: with the mailbox open, the stop signal fired, the send
branch winning the race and the application proposing digest 99, the receiver
returned by `propose` yields 99, not the parent digest 5 — refuting the claim
that a fired stop signal alone forces the parent digest. -/
theorem C6_propose_counterexample :
    mailboxPropose false true SelectBranch.send 5 (some 99) = some 99 ∧
    (some 99 : Option Nat) ≠ some 5 :=
  ⟨rfl, by decide⟩

/-- C6 (amended): the receiver returned by `propose` yields the parent's
digest whenever the application mailbox is closed, and whenever the stop
signal has fired and the stop branch of the select is taken.  (If the mailbox
is open and the send branch wins despite a fired stop signal, the message is
delivered and the receiver carries the application's reply.) -/
theorem C6_propose_fallback_parent :
    (∀ (stopFired : Bool) (w : SelectBranch) (p : Nat) (r : Option Nat),
        mailboxPropose true stopFired w p r = some p) ∧
    (∀ (closed : Bool) (p : Nat) (r : Option Nat),
        mailboxPropose closed true SelectBranch.stop p r = some p) := by
  constructor
  · intro sf w p r
    cases sf <;> cases w <;> rfl
  · intro c p r
    cases c <;> rfl

/-- C7 counterexample: with the mailbox open, the stop signal fired, the send
branch winning the race and the application answering digest 1, `genesis`
returns 1, not the constant genesis digest — refuting the claim that a fired
stop signal alone forces the genesis digest. -/
theorem C7_genesis_counterexample :
    mailboxGenesis false true SelectBranch.send (some (genesisDigest + 1)) =
      genesisDigest + 1 ∧
    genesisDigest + 1 ≠ genesisDigest :=
  ⟨rfl, by decide⟩

/-- C7 (amended): `genesis` returns the constant `genesis_digest()` whenever
the application mailbox is closed, whenever the stop signal has fired and the
stop branch of the select is taken, and whenever the message is delivered but
the application drops the reply channel without answering.  (If the send wins
despite a fired stop signal and the application answers, its answer is
returned.) -/
theorem C7_genesis_fallback_digest :
    (∀ (stopFired : Bool) (w : SelectBranch) (r : Option Nat),
        mailboxGenesis true stopFired w r = genesisDigest) ∧
    (∀ (closed : Bool) (r : Option Nat),
        mailboxGenesis closed true SelectBranch.stop r = genesisDigest) ∧
    (∀ (closed stopFired : Bool) (w : SelectBranch),
        mailboxGenesis closed stopFired w none = genesisDigest) := by
  refine ⟨?_, ?_, ?_⟩
  · intro sf w r
    cases sf <;> cases w <;> rfl
  · intro c r
    cases c <;> rfl
  · intro c sf w
    cases c <;> cases sf <;> cases w <;> rfl

/-- C8: In the engine's run loop, whenever any one of the nine awaited tasks
(the eight actor tasks or the stop-signal task) completes first, every other
task is in the remaining set that the loop calls `abort` on, and every
remaining actor task's handle is actually aborted; no actor task is left
running after any single completion or stop signal. -/
theorem C8_abort_all_remaining :
    engineTasks.length = 9 ∧
    ∀ i, i < 9 → ∀ j, j < 9 → j ≠ i →
      engineTasks.getD j ⟨"", false⟩ ∈ remainingTasks engineTasks i ∧
      ((engineTasks.getD j ⟨"", false⟩).isActor = true →
        engineTasks.getD j ⟨"", false⟩ ∈ abortedHandles engineTasks i) := by
  refine ⟨by decide, ?_⟩
  intro i hi j hj hne
  interval_cases i <;> interval_cases j <;>
    first
      | exact absurd rfl hne
      | decide

theorem C8_abort_all_remaining_witness :
    engineTasks.getD 0 ⟨"", false⟩ ∈ remainingTasks engineTasks 8 ∧
    ((engineTasks.getD 0 ⟨"", false⟩).isActor = true →
      engineTasks.getD 0 ⟨"", false⟩ ∈ abortedHandles engineTasks 8) :=
  C8_abort_all_remaining.2 8 (by decide) 0 (by decide) (by decide)

/-- C9 counterexample: at `activity_timeout = u64::MAX` the saturating
multiplication caps the retention timeout at `u64::MAX`, which is not
`activity_timeout × 10` — refuting the unconditional product claim. -/
theorem C9_view_retention_counterexample :
    marshalViewRetentionTimeout (2 ^ 64 - 1) = u64Max ∧
    marshalViewRetentionTimeout (2 ^ 64 - 1) ≠
      (2 ^ 64 - 1) * SYNCER_ACTIVITY_TIMEOUT_MULTIPLIER := by
  constructor
  · decide
  · decide

/-- C9 (amended): the `view_retention_timeout` passed to the marshal is
`activity_timeout × 10` saturated at `u64::MAX`: it equals the product
whenever the product fits in a `u64`, and equals `u64::MAX` otherwise. -/
theorem C9_view_retention_timeout :
    (∀ a : Nat, U64 a → a * SYNCER_ACTIVITY_TIMEOUT_MULTIPLIER ≤ u64Max →
      marshalViewRetentionTimeout a = a * SYNCER_ACTIVITY_TIMEOUT_MULTIPLIER) ∧
    (∀ a : Nat, u64Max < a * SYNCER_ACTIVITY_TIMEOUT_MULTIPLIER →
      marshalViewRetentionTimeout a = u64Max) := by
  constructor
  · intro a hu h
    rw [marshalViewRetentionTimeout, satMulU64]
    exact Nat.min_eq_left h
  · intro a h
    rw [marshalViewRetentionTimeout, satMulU64]
    exact Nat.min_eq_right (Nat.le_of_lt h)

theorem C9_view_retention_timeout_witness :
    (U64 3 ∧ 3 * SYNCER_ACTIVITY_TIMEOUT_MULTIPLIER ≤ u64Max ∧
      marshalViewRetentionTimeout 3 = 3 * SYNCER_ACTIVITY_TIMEOUT_MULTIPLIER) ∧
    (u64Max < 2 ^ 64 * SYNCER_ACTIVITY_TIMEOUT_MULTIPLIER ∧
      marshalViewRetentionTimeout (2 ^ 64) = u64Max) :=
  ⟨⟨by decide, by decide, C9_view_retention_timeout.1 3 (by decide) (by decide)⟩,
   ⟨by decide, C9_view_retention_timeout.2 (2 ^ 64) (by decide)⟩⟩

/-- C10: Decoding a HouseState from a buffer that ends within the first eight
fields (`current_epoch` through `total_issuance`, 80 bytes) returns an error
rather than applying defaults; forward-compatible defaulting applies only to
fields from `total_vusdt_debt` onward (any buffer of at least 80 bytes
decodes successfully). -/
theorem C10_mandatory_prefix_strict :
    ∀ bs : List Nat,
      (bs.length < 80 → HouseState.read bs = none) ∧
      (80 ≤ bs.length → (HouseState.read bs).isSome = true) :=
  fun bs =>
    ⟨HouseState.read_none_of_short bs, HouseState.read_isSome_of_ge bs⟩

theorem C10_mandatory_prefix_strict_witness :
    ((List.replicate 79 0).length < 80 ∧
      HouseState.read (List.replicate 79 0) = none) ∧
    (80 ≤ (List.replicate 80 0).length ∧
      (HouseState.read (List.replicate 80 0)).isSome = true) :=
  ⟨⟨by decide, (C10_mandatory_prefix_strict (List.replicate 79 0)).1 (by decide)⟩,
   ⟨by decide, (C10_mandatory_prefix_strict (List.replicate 80 0)).2 (by decide)⟩⟩
